import Mathlib

/-!
# Verification of the Eruptor lava-simulation core

This file gives a shallow embedding, in Lean 4, of the lava transport and
thermal-rheology simulation engine of the Eruptor repository
(`src/systems/LavaSystem.ts`, `src/systems/RealisticLavaSystem.ts`, and the
`clearLava` entry point of `src/components/Viewport.tsx`), together with
theorems settling the specification claims about it.

Modelling conventions:

* JavaScript floating-point numbers are modelled as exact rationals `ℚ`;
  `Uint8Array` cells are modelled as `ℕ` together with the wrap-around
  `mod 256` store that typed arrays perform.
* Grids are total functions `ℕ → ℕ → _`; every access the code performs is
  guarded by the same bounds checks the code performs, so values outside the
  `flowN × flowN` region are never read by the embedded operations.
* The diagonal neighbour weight `1 / Math.SQRT2` is irrational, so the
  embedding takes it as a parameter `dk : ℚ`; theorems assume no more than
  `0 ≤ dk` (or `0 < dk ≤ 1`), bounds that the real value `1/√2 ≈ 0.7071`
  satisfies, and counterexamples are evaluated at the nearby rational
  `707/1000` (they do not depend on the exact value).
* `Math.exp` and `Math.sqrt` (used only by the thermal engine) cannot be
  represented exactly in `ℚ`; the thermal embedding is parametrised by a
  `ThermalFns` record holding those two functions.  Theorems about the
  thermal engine hold for every choice of the two functions (assuming at
  most `sqrtF 0 = 0`, which is true of `Math.sqrt`), hence in particular
  for the real ones.
* The `out[i] += …` accumulation loop of the transport step is
  order-independent (rational addition is commutative), so the accumulated
  output cell is embedded as the sum, over all source cells, of the amount
  the source's loop iteration adds to that output cell.
-/

namespace Eruptor

/-- `clamp01` from `src/utils.ts`: `Math.min(1, Math.max(0, x))`. -/
def clamp01 (x : ℚ) : ℚ := min 1 (max 0 x)

/-- JavaScript `ToUint8` conversion performed by a `Uint8Array` store:
the value is reduced modulo `2^8` (`Int.emod` is already non-negative). -/
def toUint8 (z : ℤ) : ℕ := (z % 256).toNat

/-- `injectLavaUV` from `src/systems/LavaSystem.ts` (lines 356–404), as the
pointwise new value of the quantized grid.  The imperative loop writes each
in-bounds cell of the disc `dx² + dy² ≤ R²` around the floor-mapped centre
exactly once, storing `Math.min(255, lava[idx] + Math.floor(add * k))` with
`k = 1 − (dx² + dy²)/R²`; cells outside the disc (`d > 1` skip) or outside
the grid bounds keep their value. -/
def injectLavaUV (flowN : ℕ) (u v injectionAmount injectionRadius : ℚ)
    (lava : ℕ → ℕ → ℕ) : ℕ → ℕ → ℕ :=
  let rU := clamp01 u
  let rV := clamp01 (1 - v)
  let R : ℤ := max 2 (Int.floor ((flowN : ℚ) * injectionRadius))
  let cx : ℤ := Int.floor (rU * ((flowN : ℚ) - 1))
  let cy : ℤ := Int.floor (rV * ((flowN : ℚ) - 1))
  let add : ℤ := Int.floor injectionAmount
  fun ix iy =>
    let dx : ℤ := (ix : ℤ) - cx
    let dy : ℤ := (iy : ℤ) - cy
    let d : ℚ := ((dx * dx + dy * dy : ℤ) : ℚ) / ((R * R : ℤ) : ℚ)
    if ix < flowN ∧ iy < flowN ∧ d ≤ 1 then
      toUint8 (min 255 ((lava ix iy : ℤ) + Int.floor ((add : ℚ) * (1 - d))))
    else lava ix iy

/-- The neighbour list a transport iteration builds for cell `(x, y)`:
pairs of (neighbour coordinates, downhill drop).  Orthogonal neighbours
contribute `max 0 (H(i) − H(j))`, diagonal ones
`max 0 ((H(i) − H(j)) * diagK)`, in the order of the source
(`simulateLava`, lines 447–487).  The stored flow weight (`1.0` / `diagK`)
is dead in the source — the distribution loop uses the drop — so it is not
carried here. -/
def nbrList (flowN : ℕ) (dk : ℚ) (H : ℕ → ℕ → ℚ) (x y : ℕ) :
    List ((ℕ × ℕ) × ℚ) :=
  (if 0 < x then [((x - 1, y), max 0 (H x y - H (x - 1) y))] else []) ++
  (if x + 1 < flowN then [((x + 1, y), max 0 (H x y - H (x + 1) y))] else []) ++
  (if 0 < y then [((x, y - 1), max 0 (H x y - H x (y - 1)))] else []) ++
  (if y + 1 < flowN then [((x, y + 1), max 0 (H x y - H x (y + 1)))] else []) ++
  (if 0 < x ∧ 0 < y then
    [((x - 1, y - 1), max 0 ((H x y - H (x - 1) (y - 1)) * dk))] else []) ++
  (if x + 1 < flowN ∧ 0 < y then
    [((x + 1, y - 1), max 0 ((H x y - H (x + 1) (y - 1)) * dk))] else []) ++
  (if 0 < x ∧ y + 1 < flowN then
    [((x - 1, y + 1), max 0 ((H x y - H (x - 1) (y + 1)) * dk))] else []) ++
  (if x + 1 < flowN ∧ y + 1 < flowN then
    [((x + 1, y + 1), max 0 ((H x y - H (x + 1) (y + 1)) * dk))] else [])

/-- `slopeSum`: the sum of all downhill drops of a cell's neighbour list. -/
def slopeSum (flowN : ℕ) (dk : ℚ) (H : ℕ → ℕ → ℚ) (x y : ℕ) : ℚ :=
  ((nbrList flowN dk H x y).map Prod.snd).sum

/-- The amount the transport iteration for source cell `src` adds to the
output cell `tgt` (`simulateLava`, lines 495–512): in the flowing branch
the source keeps `stay` and sends `moved * drop / slopeSum` to each
neighbour with positive drop; otherwise its whole value carries over. -/
def giveAmt (flowN : ℕ) (dk flowRate step : ℚ) (ground temp : ℕ → ℕ → ℚ)
    (src tgt : ℕ × ℕ) : ℚ :=
  let H : ℕ → ℕ → ℚ := fun a b => ground a b + temp a b
  let ss := slopeSum flowN dk H src.1 src.2
  let avail := temp src.1 src.2
  if 1 / 1000000 < ss ∧ 0 < avail then
    let capacity := flowRate * step * ss
    let moved := min avail capacity
    let stay := avail - moved
    (if tgt = src then stay else 0) +
      (((nbrList flowN dk H src.1 src.2).filter
          (fun e => e.1 = tgt ∧ 0 < e.2)).map (fun e => moved / ss * e.2)).sum
  else (if tgt = src then avail else 0)

/-- The grid index set of the simulation. -/
def gridSet (flowN : ℕ) : Finset (ℕ × ℕ) :=
  Finset.range flowN ×ˢ Finset.range flowN

/-- The post-transport scratch field `out`: the value accumulated at `tgt`
by all source-cell iterations. -/
def transportOut (flowN : ℕ) (dk flowRate step : ℚ) (ground temp : ℕ → ℕ → ℚ)
    (tgt : ℕ × ℕ) : ℚ :=
  ∑ src ∈ gridSet flowN, giveAmt flowN dk flowRate step ground temp src tgt

/-- The discrete Laplacian of the viscosity pass (`simulateLava`,
lines 517–529): centre weight `−4`, plus each in-range orthogonal
neighbour. -/
def lapDiff (flowN : ℕ) (out : ℕ → ℕ → ℚ) (x y : ℕ) : ℚ :=
  out x y * (-4) +
  (if 0 < x then out (x - 1) y else 0) +
  (if x + 1 < flowN then out (x + 1) y else 0) +
  (if 0 < y then out x (y - 1) else 0) +
  (if y + 1 < flowN then out x (y + 1) else 0)

/-- The viscosity (diffusion) pass: `out[i] += viscosity * step * diff[i]`. -/
def viscStep (flowN : ℕ) (viscosity step : ℚ) (out : ℕ → ℕ → ℚ) :
    ℕ → ℕ → ℚ :=
  fun x y => out x y + viscosity * step * lapDiff flowN out x y

/-- Cooling and re-quantization (`simulateLava`, lines 536–539):
`v = max(0, out − cooling*step)`, stored as
`max(0, min(255, floor(v*255)))`. -/
def quantizeCell (cooling step v : ℚ) : ℕ :=
  (max 0 (min 255 (Int.floor (max 0 (v - cooling * step) * 255)))).toNat

/-- One `simulateLava` tick (`src/systems/LavaSystem.ts`, lines 406–542) on
the quantized grid: early exit when no cell is active, otherwise normalize
(`/255`), transport, optional diffusion (gated on `viscosity > 1e-6`),
cooling, re-quantize.  `step = min(0.1, dt)`. -/
def simulateLava (flowN : ℕ) (dk flowRate cooling viscosity dt : ℚ)
    (ground : ℕ → ℕ → ℚ) (lava : ℕ → ℕ → ℕ) : ℕ → ℕ → ℕ :=
  if ∀ p ∈ gridSet flowN, lava p.1 p.2 = 0 then
    lava
  else
    let step := min (1 / 10 : ℚ) dt
    let temp : ℕ → ℕ → ℚ := fun a b => (lava a b : ℚ) / 255
    let out : ℕ → ℕ → ℚ :=
      fun a b => transportOut flowN dk flowRate step ground temp (a, b)
    let out2 : ℕ → ℕ → ℚ :=
      if 1 / 1000000 < viscosity then viscStep flowN viscosity step out else out
    fun a b => quantizeCell cooling step (out2 a b)

/-- Total quantized thickness: the sum of all cells' 8-bit values. -/
def totalThickness (flowN : ℕ) (lava : ℕ → ℕ → ℕ) : ℕ :=
  ∑ p ∈ gridSet flowN, lava p.1 p.2

/-! ## The thermal-rheology engine (`src/systems/RealisticLavaSystem.ts`) -/

/-- `Math.exp` and `Math.sqrt` cannot be embedded exactly in `ℚ`; the
thermal engine is parametrised by them.  Every theorem below holds for
every choice of the two functions (with at most the hypothesis
`sqrtF 0 = 0`, true of `Math.sqrt`), hence for the real ones. -/
structure ThermalFns where
  expF : ℚ → ℚ
  sqrtF : ℚ → ℚ

/-- The per-cell record of the thermal engine (`interface LavaCell`). -/
structure LavaCell where
  thickness : ℚ
  temperature : ℚ
  velocity : ℚ × ℚ
  viscosity : ℚ
  age : ℚ
  solid : Bool
  crust : ℚ
deriving DecidableEq

/-- Per-cell terrain modification record (`interface TerrainModification`). -/
structure TerrainMod where
  elevation : ℚ
  baseElevation : ℚ
  lavaThickness : ℚ
deriving DecidableEq

/-- The mutable state of a `RealisticLavaSimulator`: the cell field, the
terrain-modification field, the live height data and the pristine copy
taken at construction.  `res` (the side of the height grid, i.e.
`Math.sqrt(heightData.length)`) is passed separately to the operations. -/
structure RealState where
  lavaField : ℕ → ℕ → LavaCell
  terrainMods : ℕ → ℕ → TerrainMod
  heightData : ℕ → ℚ
  originalHeightData : ℕ → ℚ

namespace RealisticLavaSimulator

/-- `LAVA_PHYSICS.SOLIDIFICATION_TEMP`. -/
def SOLIDIFICATION_TEMP : ℚ := 700

/-- `calculateViscosity` (Vogel–Fulcher–Tammann): solid constant below the
solidification threshold, otherwise `exp(A + B/(T_K − T0)) * 1000` with
`A = −4.55`, `B = 6270`, `T0 = 837` and `T_K = T + 273.15`. -/
def calculateViscosity (F : ThermalFns) (temperature : ℚ) : ℚ :=
  if temperature < SOLIDIFICATION_TEMP then 1000000
  else F.expF (-455 / 100 + 6270 / (temperature + 27315 / 100 - 837)) * 1000

/-- `calculateFlowVelocity` (Bingham plastic law).  The `neighbors`
argument of the source is dead and omitted. -/
def calculateFlowVelocity (F : ThermalFns) (cell : LavaCell)
    (slope : ℚ × ℚ) : ℚ × ℚ :=
  if cell.solid = true ∨ cell.thickness < 1 / 100 then (0, 0)
  else
    let slopeMagnitude := F.sqrtF (slope.1 * slope.1 + slope.2 * slope.2)
    if slopeMagnitude < 1 / 1000000 then (0, 0)
    else
      let shearStress := 2500 * (981 / 100) * cell.thickness * slopeMagnitude
      if shearStress < 100 then (0, 0)
      else
        let strainRate := (shearStress - 100) / cell.viscosity
        let velocity := strainRate * cell.thickness * (1 / 10)
        (velocity * slope.1 / slopeMagnitude, velocity * slope.2 / slopeMagnitude)

/-- `updateThermalProperties`: radiative (Stefan–Boltzmann, emissivity
0.95, `σ = 5.67e-8`), conductive and convective losses, temperature floored
at ambient 20 °C, viscosity update, crust growth below 900 °C, the one-way
solidification check below 700 °C, and ageing.  Early return when
`thickness < 0.001`. -/
def updateThermalProperties (F : ThermalFns) (cell : LavaCell)
    (dt surfaceArea : ℚ) : LavaCell :=
  if cell.thickness < 1 / 1000 then cell
  else
    let tSurface := cell.temperature + 27315 / 100
    let tAmbient := (20 : ℚ) + 27315 / 100
    let radiativeLoss := 95 / 100 * (567 / 10000000000) * surfaceArea *
      (tSurface ^ 4 - tAmbient ^ 4)
    let conductiveLoss := 3 / 10 * (cell.temperature - 20) * surfaceArea
    let convectiveLoss := 1 / 2 *
      F.sqrtF (cell.velocity.1 * cell.velocity.1 + cell.velocity.2 * cell.velocity.2) *
      (cell.temperature - 20) * surfaceArea
    let totalHeatLoss := (radiativeLoss + conductiveLoss + convectiveLoss) * dt
    let mass := 2500 * cell.thickness * surfaceArea
    let tempChange := totalHeatLoss / (mass * 1000)
    let temp1 := max 20 (cell.temperature - tempChange)
    let visc1 := calculateViscosity F temp1
    let crust1 := if temp1 < 900 ∧ cell.solid = false then cell.crust + dt * (1 / 10)
      else cell.crust
    let solid1 := if temp1 < SOLIDIFICATION_TEMP then true else cell.solid
    let vel1 := if temp1 < SOLIDIFICATION_TEMP then ((0 : ℚ), (0 : ℚ))
      else cell.velocity
    { cell with temperature := temp1, viscosity := visc1, crust := crust1,
                solid := solid1, velocity := vel1, age := cell.age + dt }

/-- Pointwise update of a cell field at one coordinate. -/
def upd2 (f : ℕ → ℕ → LavaCell) (x y : ℕ) (c : LavaCell) : ℕ → ℕ → LavaCell :=
  fun a b => if a = x ∧ b = y then c else f a b

/-- The in-place neighbour update a flux performs:
`neighbour.thickness += δ; neighbour.temperature = max(existing, source)`. -/
def fluxBumpCell (field : ℕ → ℕ → LavaCell) (x y : ℕ) (δ t : ℚ) :
    ℕ → ℕ → LavaCell :=
  let c := field x y
  upd2 field x y
    { c with thickness := c.thickness + δ, temperature := max c.temperature t }

/-- Pointwise update of the terrain-modification field. -/
def updTM (f : ℕ → ℕ → TerrainMod) (x y : ℕ) (m : TerrainMod) :
    ℕ → ℕ → TerrainMod :=
  fun a b => if a = x ∧ b = y then m else f a b

/-- The flow phase of one cell's `simulate` iteration: velocity from the
Bingham law, then (above the velocity/thickness thresholds) flux of a
capped fraction of the thickness to the one or two downstream neighbours,
carrying `max(existing, source)` temperature.  Returns the field with the
flux-ins applied together with the final own cell (not yet written). -/
def flowPhase (F : ThermalFns) (flowN : ℕ) (dt oldTemp : ℚ)
    (nc1 : LavaCell) (slope : ℚ × ℚ) (field : ℕ → ℕ → LavaCell)
    (x y : ℕ) : (ℕ → ℕ → LavaCell) × LavaCell :=
  let vel := calculateFlowVelocity F nc1 slope
  let nc2 := { nc1 with velocity := vel }
  let velocityMag := F.sqrtF (vel.1 * vel.1 + vel.2 * vel.2)
  if 1 / 100 < velocityMag ∧ 1 / 20 < nc2.thickness then
    let flux := min (nc2.thickness * (1 / 2)) (velocityMag * dt * nc2.thickness)
    let fluxX := flux * vel.1 / velocityMag
    let fluxY := flux * vel.2 / velocityMag
    let f1 :=
      if 0 < fluxX ∧ x < flowN - 1 then
        fluxBumpCell field (x + 1) y (fluxX * (1 / 2)) oldTemp
      else if fluxX < 0 ∧ 0 < x then
        fluxBumpCell field (x - 1) y (|fluxX| * (1 / 2)) oldTemp
      else field
    let f2 :=
      if 0 < fluxY ∧ y < flowN - 1 then
        fluxBumpCell f1 x (y + 1) (fluxY * (1 / 2)) oldTemp
      else if fluxY < 0 ∧ 0 < y then
        fluxBumpCell f1 x (y - 1) (|fluxY| * (1 / 2)) oldTemp
      else f1
    let nc3 := { nc2 with thickness := max 0 (nc2.thickness - (|fluxX| + |fluxY|)) }
    (f2, nc3)
  else (field, nc2)

/-- `modifyTerrain`: hot thick cells erode the base elevation (bounded by
1 m below the current base), solidified cells deposit permanently, the
total elevation is refreshed, and the live height sample is overwritten.
The height-data index the source computes is the float
`y*res + x*res/flowN`; a `Float32Array` store at a non-integer index is a
no-op, so the write is modelled as effective only at an integral in-range
index. -/
def modifyTerrain (flowN res : ℕ) (x y : ℕ) (cell : LavaCell) (dt : ℚ)
    (tms : ℕ → ℕ → TerrainMod) (hd : ℕ → ℚ) :
    (ℕ → ℕ → TerrainMod) × (ℕ → ℚ) :=
  let m := tms x y
  let base1 :=
    if 1000 < cell.temperature ∧ 1 / 10 < cell.thickness then
      max (m.baseElevation - 1 / 1000 * dt * (cell.temperature - 1000) / 200)
          (m.baseElevation - 1)
    else m.baseElevation
  let lth1 :=
    if cell.solid = true ∧ 0 < cell.thickness then
      max m.lavaThickness (1 / 2 * cell.thickness)
    else m.lavaThickness
  let elev := base1 + lth1
  let tms1 := updTM tms x y
    { elevation := elev, baseElevation := base1, lavaThickness := lth1 }
  let hIdx : ℚ := (y : ℚ) * (res : ℚ) + (x : ℚ) * (res : ℚ) / (flowN : ℚ)
  let hd1 : ℕ → ℚ := fun k =>
    if (k : ℚ) = hIdx ∧ hIdx < ((res * res : ℕ) : ℚ) then elev else hd k
  (tms1, hd1)

/-- One loop iteration of `RealisticLavaSimulator.simulate` for the
interior cell `(x, y)`: skip when the old cell is thin, otherwise slope
from central differences of the live modified elevation plus old
thickness, thermal update of the accumulated new cell, flow phase when
liquid, write-back, and terrain modification with the final cell. -/
def stepCell (F : ThermalFns) (flowN res : ℕ) (oldF : ℕ → ℕ → LavaCell)
    (dt : ℚ)
    (acc : (ℕ → ℕ → LavaCell) × (ℕ → ℕ → TerrainMod) × (ℕ → ℚ))
    (c : ℕ × ℕ) :
    (ℕ → ℕ → LavaCell) × (ℕ → ℕ → TerrainMod) × (ℕ → ℚ) :=
  let x := c.1
  let y := c.2
  let cell := oldF x y
  if cell.thickness < 1 / 1000 then acc
  else
    let field := acc.1
    let tms := acc.2.1
    let hd := acc.2.2
    let heightN := (tms x (y - 1)).elevation + (oldF x (y - 1)).thickness
    let heightS := (tms x (y + 1)).elevation + (oldF x (y + 1)).thickness
    let heightE := (tms (x + 1) y).elevation + (oldF (x + 1) y).thickness
    let heightW := (tms (x - 1) y).elevation + (oldF (x - 1) y).thickness
    let slope : ℚ × ℚ := ((heightE - heightW) / 2, (heightS - heightN) / 2)
    let nc1 := updateThermalProperties F (field x y) dt 1
    let r :=
      if nc1.solid = false then
        flowPhase F flowN dt cell.temperature nc1 slope field x y
      else (field, nc1)
    let field1 := upd2 r.1 x y r.2
    let tm := modifyTerrain flowN res x y r.2 dt tms hd
    (field1, tm.1, tm.2)

/-- The interior cells `(x, y)`, `1 ≤ x, y ≤ flowN − 2`, in the row-major
order of the nested `simulate` loops (`y` outer, ascending). -/
def interiorCells (flowN : ℕ) : List (ℕ × ℕ) :=
  (List.range (flowN - 2) ×ˢ List.range (flowN - 2)).map
    (fun p => (p.2 + 1, p.1 + 1))

/-- `RealisticLavaSimulator.simulate`: fold the per-cell step, in source
order, over the interior cells, starting from a copy of the current field
and the live terrain state. -/
def simulate (F : ThermalFns) (flowN res : ℕ) (dt : ℚ) (s : RealState) :
    RealState :=
  let r := (interiorCells flowN).foldl
    (stepCell F flowN res s.lavaField dt)
    (s.lavaField, s.terrainMods, s.heightData)
  { lavaField := r.1, terrainMods := r.2.1, heightData := r.2.2,
    originalHeightData := s.originalHeightData }

/-- `RealisticLavaSimulator.injectLava`: disc of radius 3 cells around the
floor-mapped coordinate, linear-falloff weight `1 − distance/3`, proper
thermal mixing by mass-weighted temperature, and reset of
`solid`/`age`/`crust`.  Cells where the combined mass is zero are left
unchanged. -/
def injectLava (F : ThermalFns) (flowN : ℕ) (u v amount temperature : ℚ)
    (field : ℕ → ℕ → LavaCell) : ℕ → ℕ → LavaCell :=
  let x : ℤ := Int.floor (u * ((flowN : ℚ) - 1))
  let y : ℤ := Int.floor (v * ((flowN : ℚ) - 1))
  fun a b =>
    let dx : ℤ := (a : ℤ) - x
    let dy : ℤ := (b : ℤ) - y
    if a < flowN ∧ b < flowN ∧ -3 ≤ dx ∧ dx ≤ 3 ∧ -3 ≤ dy ∧ dy ≤ 3 then
      let distance := F.sqrtF ((dx * dx + dy * dy : ℤ) : ℚ)
      if distance ≤ 3 then
        let weight := 1 - distance / 3
        let cell := field a b
        let newThickness := amount * weight * (1 / 100)
        let oldMass := cell.thickness * 2500
        let newMass := newThickness * 2500
        if 0 < oldMass + newMass then
          let temp1 := (cell.temperature * oldMass + temperature * newMass) /
            (oldMass + newMass)
          { cell with temperature := temp1,
                      thickness := cell.thickness + newThickness,
                      solid := false, age := 0, crust := 0,
                      viscosity := calculateViscosity F temp1 }
        else cell
      else field a b
    else field a b

/-- Lift `injectLava` to the simulator state (it touches only the field). -/
def injectLavaState (F : ThermalFns) (flowN : ℕ)
    (u v amount temperature : ℚ) (s : RealState) : RealState :=
  { s with lavaField := injectLava F flowN u v amount temperature s.lavaField }

/-- `RealisticLavaSimulator.clear`: zero every cell's fluid state (the
viscosity field is not reset by the source), reset the terrain
modifications, and restore the pristine height data. -/
def clear (flowN : ℕ) (s : RealState) : RealState :=
  { lavaField := fun a b =>
      if a < flowN ∧ b < flowN then
        let c := s.lavaField a b
        { c with thickness := 0, temperature := 20, velocity := (0, 0),
                 solid := true, age := 0, crust := 0 }
      else s.lavaField a b,
    terrainMods := fun a b =>
      if a < flowN ∧ b < flowN then
        let m := s.terrainMods a b
        { m with elevation := m.baseElevation, lavaThickness := 0 }
      else s.terrainMods a b,
    heightData := s.originalHeightData,
    originalHeightData := s.originalHeightData }

/-- `sampleHeightAtUV`: nearest (floor) sample of the pristine height data,
`0` when out of range (the source's `… || 0`). -/
def sampleHeightAtUV (hd : ℕ → ℚ) (res : ℕ) (u v : ℚ) : ℚ :=
  let x : ℤ := Int.floor (u * ((res : ℚ) - 1))
  let y : ℤ := Int.floor (v * ((res : ℚ) - 1))
  let idx : ℤ := y * res + x
  if 0 ≤ idx ∧ idx < ((res * res : ℕ) : ℤ) then hd idx.toNat else 0

/-- A cell as the constructor builds it: empty, ambient, solid. -/
def initCell : LavaCell :=
  { thickness := 0, temperature := 20, velocity := (0, 0),
    viscosity := 1000000, age := 0, solid := true, crust := 0 }

/-- The constructor of `RealisticLavaSimulator`. -/
def initState (flowN res : ℕ) (hd0 : ℕ → ℚ) : RealState :=
  { lavaField := fun _ _ => initCell,
    terrainMods := fun x y =>
      { elevation := sampleHeightAtUV hd0 res ((x : ℚ) / ((flowN : ℚ) - 1))
          ((y : ℚ) / ((flowN : ℚ) - 1)),
        baseElevation := sampleHeightAtUV hd0 res ((x : ℚ) / ((flowN : ℚ) - 1))
          ((y : ℚ) / ((flowN : ℚ) - 1)),
        lavaThickness := 0 },
    heightData := hd0,
    originalHeightData := hd0 }

/-- The states of a `RealisticLavaSimulator` reachable from construction
by any sequence of `simulate`, `injectLava` and `clear` calls. -/
inductive Reached (F : ThermalFns) (flowN res : ℕ) (hd0 : ℕ → ℚ) :
    RealState → Prop where
  | init : Reached F flowN res hd0 (initState flowN res hd0)
  | sim : ∀ s dt, Reached F flowN res hd0 s →
      Reached F flowN res hd0 (simulate F flowN res dt s)
  | inject : ∀ s u v amount temperature, Reached F flowN res hd0 s →
      Reached F flowN res hd0 (injectLavaState F flowN u v amount temperature s)
  | wipe : ∀ s, Reached F flowN res hd0 s →
      Reached F flowN res hd0 (clear flowN s)

end RealisticLavaSimulator

/-! ## The composite lava system (`setupLavaSystem` / `clearLava`) -/

/-- The parts of the `LavaSystem` record relevant to the claims: the simple
quantized grid actually driven by the interactive loop, the persistent
vent list, and the thermal simulator constructed alongside it. -/
structure LavaSystemState where
  lava : ℕ → ℕ → ℕ
  persistentVents : List (ℚ × ℚ)
  realisticSim : RealState

/-- `setupLavaSystem`: fresh zero grid, empty vent list, freshly
constructed thermal simulator. -/
def setupLavaSystem (flowN res : ℕ) (hd0 : ℕ → ℚ) : LavaSystemState :=
  { lava := fun _ _ => 0,
    persistentVents := [],
    realisticSim := RealisticLavaSimulator.initState flowN res hd0 }

/-- `clearLava` from `src/components/Viewport.tsx` (lines 515–528).  The
`realisticSim` field is always set by `setupLavaSystem`, so the branch
taken is `realisticSim.clear()`; the `else` branch that fills the simple
quantized grid with zeros is dead, and the vent list is emptied. -/
def clearLava (flowN : ℕ) (s : LavaSystemState) : LavaSystemState :=
  { s with realisticSim := RealisticLavaSimulator.clear flowN s.realisticSim,
           persistentVents := [] }

/-- Modelled from the spec (for comparison with the source): the spec says
the injection disc is "centered at the grid cell nearest `(u, 1−v)`"; the
grid cell nearest a clamped coordinate `t ∈ [0,1]` is the rounded index
`round (t * (N − 1))`.  The source instead uses the floor
(`Math.floor(rU * (flowN - 1))`). -/
def specNearestIndex (flowN : ℕ) (t : ℚ) : ℤ :=
  round (t * ((flowN : ℚ) - 1))

/-- Statement gadget: a cell is solidified with zero velocity. -/
def SolidZero (cell : LavaCell) : Prop :=
  cell.solid = true ∧ cell.velocity = (0, 0)

/-- Statement gadget: a solidified cell has zero velocity. -/
def SolidImpliesStill (cell : LavaCell) : Prop :=
  cell.solid = true → cell.velocity = (0, 0)

/-- Statement gadget: a cell below the solidification threshold is
solidified with zero velocity. -/
def ColdImpliesSolid (cell : LavaCell) : Prop :=
  cell.temperature < RealisticLavaSimulator.SOLIDIFICATION_TEMP →
    cell.solid = true ∧ cell.velocity = (0, 0)

/-- Statement gadget: how one cell's `simulate` iteration may affect the
stored record of *another* cell — a flux-in only adds thickness and only
raises temperature, and leaves `solid`, `velocity`, `viscosity`, `age` and
`crust` alone. -/
def FluxBump (f g : ℕ → ℕ → LavaCell) : Prop :=
  ∀ a b : ℕ,
    (g a b).solid = (f a b).solid ∧
    (g a b).velocity = (f a b).velocity ∧
    (f a b).thickness ≤ (g a b).thickness ∧
    (f a b).temperature ≤ (g a b).temperature

/-- A degenerate `ThermalFns` instantiation used for concrete runs; it
satisfies `sqrtF 0 = 0`, as `Math.sqrt` does. -/
def zeroFns : ThermalFns :=
  { expF := fun _ => 0, sqrtF := fun _ => 0 }

/-- A concrete thermal state for witnesses: one liquid, cooling cell just
above the solidification threshold in the middle of a 3×3 grid. -/
def coolingCellState : RealState :=
  { lavaField := fun a b =>
      if a = 1 ∧ b = 1 then
        { thickness := 1, temperature := 699, velocity := (0, 0),
          viscosity := 10, age := 0, solid := false, crust := 0 }
      else RealisticLavaSimulator.initCell,
    terrainMods := fun _ _ =>
      { elevation := 0, baseElevation := 0, lavaThickness := 0 },
    heightData := fun _ => 0,
    originalHeightData := fun _ => 0 }

/-! ## Lemmas about the transport step -/

theorem nbrList_snd_nonneg {flowN : ℕ} {dk : ℚ} {H : ℕ → ℕ → ℚ} {x y : ℕ} :
    ∀ e ∈ nbrList flowN dk H x y, 0 ≤ e.2 := by
  intro e he
  simp only [nbrList, List.mem_append] at he
  rcases he with ((((((h | h) | h) | h) | h) | h) | h) | h <;>
    [skip; skip; skip; skip; skip; skip; skip; skip] <;>
    · split at h <;> simp_all

theorem nbrList_fst_lt {flowN : ℕ} {dk : ℚ} {H : ℕ → ℕ → ℚ} {x y : ℕ}
    (hx : x < flowN) (hy : y < flowN) :
    ∀ e ∈ nbrList flowN dk H x y, e.1.1 < flowN ∧ e.1.2 < flowN := by
  intro e he
  simp only [nbrList, List.mem_append] at he
  rcases he with ((((((h | h) | h) | h) | h) | h) | h) | h <;>
    · split at h <;> simp_all <;> omega

theorem slopeSum_nonneg {flowN : ℕ} {dk : ℚ} {H : ℕ → ℕ → ℚ} {x y : ℕ} :
    0 ≤ slopeSum flowN dk H x y := by
  refine List.sum_nonneg ?_
  intro q hq
  simp only [List.mem_map] at hq
  obtain ⟨e, he, rfl⟩ := hq
  exact nbrList_snd_nonneg e he

/-- Dropping the zero entries does not change the sum of a list of
non-negative values. -/
theorem sum_filter_pos_eq {α : Type} (l : List (α × ℚ))
    (h : ∀ e ∈ l, 0 ≤ e.2) (c : ℚ) :
    ((l.filter (fun e => 0 < e.2)).map (fun e => c * e.2)).sum
      = c * (l.map Prod.snd).sum := by
  induction l with
  | nil => simp
  | cons e l ih =>
    have he : 0 ≤ e.2 := h e (List.mem_cons_self e l)
    have ih' := ih (fun e' he' => h e' (List.mem_cons_of_mem e he'))
    by_cases hp : 0 < e.2
    · simp [List.filter_cons, hp, ih', mul_add]
    · have : e.2 = 0 := le_antisymm (not_lt.mp hp) he
      simp [List.filter_cons, hp, ih', this, mul_add]

/-- Grouping the per-target filtered sums over all targets recovers the sum
over the whole (positively-filtered) list, when every list entry's target
lies in the index set. -/
theorem sum_over_targets {α : Type} [DecidableEq α] (l : List (α × ℚ))
    (S : Finset α) (c : ℚ) (hl : ∀ e ∈ l, e.1 ∈ S) :
    ∑ t ∈ S, ((l.filter (fun e => e.1 = t ∧ 0 < e.2)).map
        (fun e => c * e.2)).sum
      = ((l.filter (fun e => 0 < e.2)).map (fun e => c * e.2)).sum := by
  induction l with
  | nil => simp
  | cons e l ih =>
    have he : e.1 ∈ S := hl e (List.mem_cons_self e l)
    have ih' := ih (fun e' he' => hl e' (List.mem_cons_of_mem e he'))
    by_cases hp : 0 < e.2
    · have hsplit : ∀ t ∈ S,
          ((List.filter (fun e' => decide (e'.1 = t ∧ 0 < e'.2)) (e :: l)).map
            (fun e' => c * e'.2)).sum
          = (if e.1 = t then c * e.2 else 0) +
            ((l.filter (fun e' => e'.1 = t ∧ 0 < e'.2)).map
              (fun e' => c * e'.2)).sum := by
        intro t _
        by_cases het : e.1 = t
        · simp [List.filter_cons, het, hp]
        · simp [List.filter_cons, het]
      rw [Finset.sum_congr rfl hsplit, Finset.sum_add_distrib, ih']
      simp [List.filter_cons, hp, Finset.sum_ite_eq' S e.1 (fun _ => c * e.2), he]
    · have hsplit : ∀ t ∈ S,
          ((List.filter (fun e' => decide (e'.1 = t ∧ 0 < e'.2)) (e :: l)).map
            (fun e' => c * e'.2)).sum
          = ((l.filter (fun e' => e'.1 = t ∧ 0 < e'.2)).map
              (fun e' => c * e'.2)).sum := by
        intro t _
        simp [List.filter_cons, hp]
      rw [Finset.sum_congr rfl hsplit, ih']
      simp [List.filter_cons, hp]

theorem mem_gridSet {flowN : ℕ} {p : ℕ × ℕ} :
    p ∈ gridSet flowN ↔ p.1 < flowN ∧ p.2 < flowN := by
  simp [gridSet, Finset.mem_product]

/-- Each source cell's transport iteration hands out exactly its standing
fluid: the `stay` part plus the distributed shares sum to `temp src`. -/
theorem sum_giveAmt (flowN : ℕ) (dk flowRate step : ℚ)
    (ground temp : ℕ → ℕ → ℚ) {src : ℕ × ℕ} (hsrc : src ∈ gridSet flowN) :
    ∑ tgt ∈ gridSet flowN, giveAmt flowN dk flowRate step ground temp src tgt
      = temp src.1 src.2 := by
  classical
  obtain ⟨hx, hy⟩ := mem_gridSet.mp hsrc
  by_cases hb : 1 / 1000000 <
      slopeSum flowN dk (fun a b => ground a b + temp a b) src.1 src.2 ∧
      0 < temp src.1 src.2
  · have hss : (0 : ℚ) <
        slopeSum flowN dk (fun a b => ground a b + temp a b) src.1 src.2 :=
      lt_trans (by norm_num) hb.1
    simp only [giveAmt, if_pos hb]
    rw [Finset.sum_add_distrib, Finset.sum_ite_eq' (gridSet flowN) src, if_pos hsrc]
    have hl : ∀ e ∈ nbrList flowN dk (fun a b => ground a b + temp a b)
        src.1 src.2, e.1 ∈ gridSet flowN := by
      intro e he
      exact mem_gridSet.mpr (nbrList_fst_lt hx hy e he)
    rw [sum_over_targets _ _ _ hl, sum_filter_pos_eq _ (nbrList_snd_nonneg) _]
    have hfold : (List.map Prod.snd (nbrList flowN dk
        (fun a b => ground a b + temp a b) src.1 src.2)).sum
        = slopeSum flowN dk (fun a b => ground a b + temp a b) src.1 src.2 := rfl
    rw [hfold, div_mul_cancel₀ _ (ne_of_gt hss)]
    ring
  · simp only [giveAmt, if_neg hb]
    rw [Finset.sum_ite_eq' (gridSet flowN) src, if_pos hsrc]

/-- Exact conservation of the transport redistribution: the scratch field
after transport carries the same total as the normalized input. -/
theorem sum_transportOut (flowN : ℕ) (dk flowRate step : ℚ)
    (ground temp : ℕ → ℕ → ℚ) :
    ∑ tgt ∈ gridSet flowN,
        transportOut flowN dk flowRate step ground temp tgt
      = ∑ src ∈ gridSet flowN, temp src.1 src.2 := by
  unfold transportOut
  rw [Finset.sum_comm]
  exact Finset.sum_congr rfl (fun src hsrc => sum_giveAmt _ _ _ _ _ _ hsrc)

theorem giveAmt_nonneg (flowN : ℕ) (dk flowRate step : ℚ)
    (ground temp : ℕ → ℕ → ℚ) (src tgt : ℕ × ℕ)
    (hfs : 0 ≤ flowRate * step) (ht : 0 ≤ temp src.1 src.2) :
    0 ≤ giveAmt flowN dk flowRate step ground temp src tgt := by
  classical
  by_cases hb : 1 / 1000000 <
      slopeSum flowN dk (fun a b => ground a b + temp a b) src.1 src.2 ∧
      0 < temp src.1 src.2
  · have hss : (0 : ℚ) <
        slopeSum flowN dk (fun a b => ground a b + temp a b) src.1 src.2 :=
      lt_trans (by norm_num) hb.1
    have hcap : 0 ≤ flowRate * step *
        slopeSum flowN dk (fun a b => ground a b + temp a b) src.1 src.2 :=
      mul_nonneg hfs (le_of_lt hss)
    have hmoved : 0 ≤ min (temp src.1 src.2)
        (flowRate * step *
          slopeSum flowN dk (fun a b => ground a b + temp a b) src.1 src.2) :=
      le_min ht hcap
    simp only [giveAmt, if_pos hb]
    refine add_nonneg ?_ ?_
    · split
      · exact sub_nonneg.mpr (min_le_left _ _)
      · exact le_refl 0
    · refine List.sum_nonneg ?_
      intro q hq
      simp only [List.mem_map, List.mem_filter, decide_eq_true_eq] at hq
      obtain ⟨e, ⟨-, -, hpos⟩, rfl⟩ := hq
      exact mul_nonneg (div_nonneg hmoved (le_of_lt hss)) (le_of_lt hpos)
  · simp only [giveAmt, if_neg hb]
    split <;> simp [ht]

theorem transportOut_nonneg (flowN : ℕ) (dk flowRate step : ℚ)
    (ground temp : ℕ → ℕ → ℚ) (tgt : ℕ × ℕ)
    (hfs : 0 ≤ flowRate * step) (ht : ∀ a b, 0 ≤ temp a b) :
    0 ≤ transportOut flowN dk flowRate step ground temp tgt := by
  refine Finset.sum_nonneg ?_
  intro src _
  exact giveAmt_nonneg _ _ _ _ _ _ _ _ hfs (ht _ _)

/-- With `flowRate = 0` the capacity vanishes and each source's iteration
just carries its value over. -/
theorem giveAmt_flowRate_zero (flowN : ℕ) (dk step : ℚ)
    (ground temp : ℕ → ℕ → ℚ) (src tgt : ℕ × ℕ)
    (ht : 0 ≤ temp src.1 src.2) :
    giveAmt flowN dk 0 step ground temp src tgt
      = if tgt = src then temp src.1 src.2 else 0 := by
  classical
  by_cases hb : 1 / 1000000 <
      slopeSum flowN dk (fun a b => ground a b + temp a b) src.1 src.2 ∧
      0 < temp src.1 src.2
  · have hmin : temp src.1 src.2 ⊓ (0 : ℚ) = 0 := min_eq_right ht
    simp only [giveAmt, if_pos hb, zero_mul, hmin, zero_div, sub_zero]
    have hz : ∀ l : List ((ℕ × ℕ) × ℚ),
        (l.map (fun e => (0 : ℚ) * e.2)).sum = 0 := by
      intro l
      refine List.sum_eq_zero ?_
      intro q hq
      simp only [List.mem_map] at hq
      obtain ⟨e, -, rfl⟩ := hq
      exact zero_mul e.2
    simp [hz]
  · simp only [giveAmt, if_neg hb]

theorem transportOut_flowRate_zero (flowN : ℕ) (dk step : ℚ)
    (ground temp : ℕ → ℕ → ℚ) (tgt : ℕ × ℕ)
    (htgt : tgt ∈ gridSet flowN) (ht : ∀ a b, 0 ≤ temp a b) :
    transportOut flowN dk 0 step ground temp tgt = temp tgt.1 tgt.2 := by
  unfold transportOut
  rw [Finset.sum_congr rfl
    (fun src _ => giveAmt_flowRate_zero flowN dk step ground temp src tgt
      (ht _ _))]
  rw [Finset.sum_ite_eq (gridSet flowN) tgt (fun p => temp p.1 p.2), if_pos htgt]

/-! ## Quantization lemmas -/

theorem quantizeCell_le (step v : ℚ) (hv : 0 ≤ v) :
    (quantizeCell 0 step v : ℚ) ≤ v * 255 := by
  unfold quantizeCell
  rw [zero_mul, sub_zero, max_eq_right hv]
  have hz0 : (0 : ℤ) ≤ Int.floor (v * 255) :=
    Int.floor_nonneg.mpr (by positivity)
  have hmm : max 0 (min 255 (Int.floor (v * 255)))
      = min 255 (Int.floor (v * 255)) :=
    max_eq_right (le_min (by norm_num) hz0)
  rw [hmm]
  have hcast : (((min 255 (Int.floor (v * 255))).toNat : ℚ))
      = ((min 255 (Int.floor (v * 255)) : ℤ) : ℚ) := by
    rw [← Int.cast_natCast (R := ℚ),
      Int.toNat_of_nonneg (le_min (by norm_num) hz0)]
  have h2 : ((min 255 (Int.floor (v * 255)) : ℤ) : ℚ) ≤ v * 255 := by
    refine le_trans ?_ (Int.floor_le _)
    exact_mod_cast min_le_right (255 : ℤ) (Int.floor (v * 255))
  rw [hcast]
  exact h2

theorem quantizeCell_ge (step v : ℚ) (hv : 0 ≤ v) (h1 : v ≤ 1) :
    v * 255 - 1 ≤ (quantizeCell 0 step v : ℚ) := by
  unfold quantizeCell
  rw [zero_mul, sub_zero, max_eq_right hv]
  have hz0 : (0 : ℤ) ≤ Int.floor (v * 255) :=
    Int.floor_nonneg.mpr (by positivity)
  have hle : Int.floor (v * 255) ≤ 255 := by
    have hb : v * 255 ≤ (255 : ℚ) := by nlinarith
    have := Int.floor_le_floor hb
    simpa using this
  have hmin : min 255 (Int.floor (v * 255)) = Int.floor (v * 255) :=
    min_eq_right hle
  have hmax : max 0 (Int.floor (v * 255)) = Int.floor (v * 255) :=
    max_eq_right hz0
  rw [hmin, hmax]
  have hcast : ((Int.floor (v * 255)).toNat : ℚ)
      = ((Int.floor (v * 255) : ℤ) : ℚ) := by
    rw [← Int.cast_natCast (R := ℚ), Int.toNat_of_nonneg hz0]
  rw [hcast]
  have := Int.sub_one_lt_floor (v * 255)
  linarith

theorem quantizeCell_lt (c step : ℚ) (L : ℕ) (hcs : 0 < c * step)
    (hL : 0 < L) : quantizeCell c step ((L : ℚ) / 255) < L := by
  unfold quantizeCell
  set w := max 0 ((L : ℚ) / 255 - c * step) with hw
  have hwlt : w * 255 < (L : ℚ) := by
    rcases max_cases (0 : ℚ) ((L : ℚ) / 255 - c * step) with ⟨h1, h2⟩ | ⟨h1, h2⟩
    · rw [← hw] at h1
      rw [h1, zero_mul]
      exact_mod_cast hL
    · rw [← hw] at h1
      rw [h1]
      have : ((L : ℚ) / 255 - c * step) * 255 = (L : ℚ) - c * step * 255 := by
        ring
      rw [this]
      nlinarith
  have hzL : Int.floor (w * 255) < (L : ℤ) := by
    rw [Int.floor_lt]
    exact_mod_cast hwlt
  have : max 0 (min 255 (Int.floor (w * 255))) < (L : ℤ) := by
    rcases le_or_lt (Int.floor (w * 255)) 255 with h | h
    · rw [min_eq_right h]
      exact max_lt (by exact_mod_cast hL) hzL
    · rw [min_eq_left (le_of_lt h)]
      refine max_lt (by exact_mod_cast hL) ?_
      omega
  omega

theorem quantizeCell_zero (c step : ℚ) (hcs : 0 ≤ c * step) :
    quantizeCell c step 0 = 0 := by
  unfold quantizeCell
  have : max 0 ((0 : ℚ) - c * step) = 0 := by
    rw [zero_sub]
    exact max_eq_left (by linarith)
  rw [this, zero_mul, Int.floor_zero]
  simp

/-- `quantizeCell` is antitone in the cooling removal: weaker cooling never
produces a smaller stored value. -/
theorem quantizeCell_anti (c c' step v : ℚ) (h : c' * step ≤ c * step) :
    quantizeCell c step v ≤ quantizeCell c' step v := by
  unfold quantizeCell
  have h1 : max 0 (v - c * step) ≤ max 0 (v - c' * step) :=
    max_le_max (le_refl 0) (by linarith)
  have h2 : Int.floor (max 0 (v - c * step) * 255)
      ≤ Int.floor (max 0 (v - c' * step) * 255) :=
    Int.floor_le_floor (by nlinarith)
  omega

/-! ## Flat-field lemmas -/

theorem slopeSum_eq_zero_of_const (flowN : ℕ) (dk : ℚ) (H : ℕ → ℕ → ℚ)
    (g : ℚ) (x y : ℕ) (hx : x < flowN) (hy : y < flowN)
    (hH : ∀ a b, a < flowN → b < flowN → H a b = g) :
    slopeSum flowN dk H x y = 0 := by
  unfold slopeSum
  have hz : ∀ a b : ℕ, a < flowN → b < flowN →
      max 0 (H x y - H a b) = 0 := by
    intro a b ha hb
    rw [hH x y hx hy, hH a b ha hb, sub_self]
    exact max_eq_left (le_refl 0)
  have hzd : ∀ a b : ℕ, a < flowN → b < flowN →
      max 0 ((H x y - H a b) * dk) = 0 := by
    intro a b ha hb
    rw [hH x y hx hy, hH a b ha hb, sub_self, zero_mul]
    exact max_eq_left (le_refl 0)
  refine List.sum_eq_zero ?_
  intro q hq
  simp only [List.mem_map] at hq
  obtain ⟨e, he, rfl⟩ := hq
  simp only [nbrList, List.mem_append] at he
  rcases he with ((((((h | h) | h) | h) | h) | h) | h) | h
  · split at h
    · simp only [List.mem_singleton] at h; subst h
      exact hz (x - 1) y (by omega) hy
    · simp at h
  · split at h
    · simp only [List.mem_singleton] at h; subst h
      exact hz (x + 1) y (by omega) hy
    · simp at h
  · split at h
    · simp only [List.mem_singleton] at h; subst h
      exact hz x (y - 1) hx (by omega)
    · simp at h
  · split at h
    · simp only [List.mem_singleton] at h; subst h
      exact hz x (y + 1) hx (by omega)
    · simp at h
  · split at h
    · simp only [List.mem_singleton] at h; subst h
      exact hzd (x - 1) (y - 1) (by omega) (by omega)
    · simp at h
  · split at h
    · simp only [List.mem_singleton] at h; subst h
      exact hzd (x + 1) (y - 1) (by omega) (by omega)
    · simp at h
  · split at h
    · simp only [List.mem_singleton] at h; subst h
      exact hzd (x - 1) (y + 1) (by omega) (by omega)
    · simp at h
  · split at h
    · simp only [List.mem_singleton] at h; subst h
      exact hzd (x + 1) (y + 1) (by omega) (by omega)
    · simp at h

/-- On a field whose combined surface height is constant over the grid,
every source cell's iteration just carries its value, so the transport
output equals the input. -/
theorem transportOut_const (flowN : ℕ) (dk flowRate step : ℚ)
    (ground temp : ℕ → ℕ → ℚ) (g t : ℚ)
    (hg : ∀ a b, a < flowN → b < flowN → ground a b = g)
    (ht : ∀ a b, a < flowN → b < flowN → temp a b = t)
    (tgt : ℕ × ℕ) (htgt : tgt ∈ gridSet flowN) :
    transportOut flowN dk flowRate step ground temp tgt = temp tgt.1 tgt.2 := by
  unfold transportOut
  have hgive : ∀ src ∈ gridSet flowN,
      giveAmt flowN dk flowRate step ground temp src tgt
        = if tgt = src then temp src.1 src.2 else 0 := by
    intro src hsrc
    obtain ⟨hx, hy⟩ := mem_gridSet.mp hsrc
    have hss : slopeSum flowN dk (fun a b => ground a b + temp a b)
        src.1 src.2 = 0 :=
      slopeSum_eq_zero_of_const flowN dk _ (g + t) src.1 src.2 hx hy
        (fun a b ha hb => by simp only [hg a b ha hb, ht a b ha hb])
    have hcond : ¬(1 / 1000000 <
        slopeSum flowN dk (fun a b => ground a b + temp a b) src.1 src.2 ∧
        0 < temp src.1 src.2) := by
      rw [hss]
      rintro ⟨h1, -⟩
      norm_num at h1
    simp only [giveAmt, if_neg hcond]
  rw [Finset.sum_congr rfl hgive,
    Finset.sum_ite_eq (gridSet flowN) tgt (fun p => temp p.1 p.2), if_pos htgt]

/-- In the non-idle case, the tick is cooling-quantization of the
post-transport (and possibly post-diffusion) field. -/
theorem simulateLava_eq_of_active (flowN : ℕ)
    (dk flowRate cooling viscosity dt : ℚ) (ground : ℕ → ℕ → ℚ)
    (lava : ℕ → ℕ → ℕ)
    (hact : ¬∀ p ∈ gridSet flowN, lava p.1 p.2 = 0) (a b : ℕ) :
    simulateLava flowN dk flowRate cooling viscosity dt ground lava a b
      = quantizeCell cooling (min (1 / 10) dt)
          ((if 1 / 1000000 < viscosity then
              viscStep flowN viscosity (min (1 / 10) dt)
                (fun a' b' => transportOut flowN dk flowRate (min (1 / 10) dt)
                  ground (fun i j => (lava i j : ℚ) / 255) (a', b'))
            else
              (fun a' b' => transportOut flowN dk flowRate (min (1 / 10) dt)
                ground (fun i j => (lava i j : ℚ) / 255) (a', b'))) a b) := by
  simp only [simulateLava, if_neg hact]

/-- With viscosity parameter `0` the diffusion gate `viscosity > 1e-6` is
closed. -/
theorem simulateLava_zero_visc (flowN : ℕ) (dk flowRate cooling dt : ℚ)
    (ground : ℕ → ℕ → ℚ) (lava : ℕ → ℕ → ℕ)
    (hact : ¬∀ p ∈ gridSet flowN, lava p.1 p.2 = 0) (a b : ℕ) :
    simulateLava flowN dk flowRate cooling 0 dt ground lava a b
      = quantizeCell cooling (min (1 / 10) dt)
          (transportOut flowN dk flowRate (min (1 / 10) dt) ground
            (fun i j => (lava i j : ℚ) / 255) (a, b)) := by
  rw [simulateLava_eq_of_active flowN dk flowRate cooling 0 dt ground lava hact,
    if_neg (by norm_num)]

/-- **C7** (confirmed).  With mobility (`flowRate`) `0`, viscosity `0` and
cooling `c > 0`, each `simulateLava` tick with `dt > 0` strictly decreases
every cell's quantized thickness that is above zero, and a cell at zero
stays at zero — so each cell decreases every tick until it reaches zero
and then stays there. -/
theorem C7_monotonic_cooling (flowN : ℕ) (dk c dt : ℚ)
    (ground : ℕ → ℕ → ℚ) (lava : ℕ → ℕ → ℕ) (hc : 0 < c) (hdt : 0 < dt) :
    ∀ p ∈ gridSet flowN,
      (0 < lava p.1 p.2 →
        simulateLava flowN dk 0 c 0 dt ground lava p.1 p.2 < lava p.1 p.2) ∧
      (lava p.1 p.2 = 0 →
        simulateLava flowN dk 0 c 0 dt ground lava p.1 p.2 = 0) := by
  intro p hp
  have hstep : (0 : ℚ) < min (1 / 10) dt := lt_min (by norm_num) hdt
  have hcs : 0 < c * min (1 / 10) dt := mul_pos hc hstep
  by_cases hact : ∀ q ∈ gridSet flowN, lava q.1 q.2 = 0
  · constructor
    · intro hpos
      rw [hact p hp] at hpos
      exact absurd hpos (lt_irrefl 0)
    · intro h0
      simp only [simulateLava, if_pos hact]
      exact h0
  · have htr : transportOut flowN dk 0 (min (1 / 10) dt) ground
        (fun i j => (lava i j : ℚ) / 255) p
          = (lava p.1 p.2 : ℚ) / 255 :=
      transportOut_flowRate_zero flowN dk (min (1 / 10) dt) ground
        (fun i j => (lava i j : ℚ) / 255) p hp
        (fun i j => by positivity)
    constructor
    · intro hpos
      rw [simulateLava_zero_visc flowN dk 0 c dt ground lava hact]
      have : (p.1, p.2) = p := rfl
      rw [this, htr]
      exact quantizeCell_lt c (min (1 / 10) dt) (lava p.1 p.2) hcs hpos
    · intro h0
      rw [simulateLava_zero_visc flowN dk 0 c dt ground lava hact]
      have : (p.1, p.2) = p := rfl
      rw [this, htr, h0]
      simpa using quantizeCell_zero c (min (1 / 10) dt) (le_of_lt hcs)

unseal Rat.add Rat.mul Rat.inv Rat.sub in
/-- Witness for `C7_monotonic_cooling`: a 1×1 grid holding 128 drops to 127
after one tick with cooling `1/1000` and `dt = 1/10`. -/
theorem C7_monotonic_cooling_witness :
    (0 : ℚ) < 1 / 1000 ∧ (0 : ℚ) < 1 / 10 ∧ ((0, 0) : ℕ × ℕ) ∈ gridSet 1 ∧
      (0 < (fun _ _ : ℕ => 128) 0 0 →
        simulateLava 1 (707 / 1000) 0 (1 / 1000) 0 (1 / 10) (fun _ _ => 0)
          (fun _ _ => 128) 0 0 < 128) ∧
      simulateLava 1 (707 / 1000) 0 (1 / 1000) 0 (1 / 10) (fun _ _ => 0)
          (fun _ _ => 128) 0 0 = 127 := by
  refine ⟨by norm_num, by norm_num, by decide, ?_, by decide⟩
  exact fun h => (C7_monotonic_cooling 1 (707 / 1000) (1 / 1000) (1 / 10)
    (fun _ _ => 0) (fun _ _ => 128) (by norm_num) (by norm_num)
    (0, 0) (by decide)).1 h

/-- **C5** (corrected — amended claim).  On a perfectly flat HeightField
with no injection and a *uniform* thickness field, the transport step of
`simulateLava` leaves the thickness distribution unchanged (`slopeSum = 0`
everywhere), and the full tick (viscosity `0`) reduces to pure cooling.
The original claim, for *every* thickness configuration, is false (see the
counterexample): the combined surface `ground + thickness` drives flow even
on flat ground. -/
theorem C5_flat_uniform_transport_noop (flowN : ℕ) (dk flowRate c dt : ℚ)
    (ground : ℕ → ℕ → ℚ) (lava : ℕ → ℕ → ℕ) (g : ℚ) (L : ℕ)
    (hg : ∀ a b, a < flowN → b < flowN → ground a b = g)
    (hL : ∀ a b, a < flowN → b < flowN → lava a b = L)
    (hc : 0 ≤ c) (hdt : 0 ≤ dt) :
    ∀ p ∈ gridSet flowN,
      transportOut flowN dk flowRate (min (1 / 10) dt) ground
          (fun i j => (lava i j : ℚ) / 255) p = (lava p.1 p.2 : ℚ) / 255 ∧
      simulateLava flowN dk flowRate c 0 dt ground lava p.1 p.2
        = quantizeCell c (min (1 / 10) dt) ((L : ℚ) / 255) := by
  intro p hp
  obtain ⟨hp1, hp2⟩ := mem_gridSet.mp hp
  have hstep : (0 : ℚ) ≤ min (1 / 10) dt := le_min (by norm_num) hdt
  have hcs : 0 ≤ c * min (1 / 10) dt := mul_nonneg hc hstep
  have htransport : transportOut flowN dk flowRate (min (1 / 10) dt) ground
      (fun i j => (lava i j : ℚ) / 255) p = (lava p.1 p.2 : ℚ) / 255 :=
    transportOut_const flowN dk flowRate (min (1 / 10) dt) ground
      (fun i j => (lava i j : ℚ) / 255) g ((L : ℚ) / 255) hg
      (fun a b ha hb => by simp only [hL a b ha hb]) p hp
  refine ⟨htransport, ?_⟩
  by_cases hact : ∀ q ∈ gridSet flowN, lava q.1 q.2 = 0
  · have hL0 : L = 0 := by
      have := hact p hp
      rw [hL p.1 p.2 hp1 hp2] at this
      exact this
    simp only [simulateLava, if_pos hact]
    rw [hact p hp, hL0]
    rw [Nat.cast_zero, zero_div, quantizeCell_zero c _ hcs]
  · rw [simulateLava_zero_visc flowN dk flowRate c dt ground lava hact]
    have hpp : ((p.1, p.2) : ℕ × ℕ) = p := rfl
    rw [hpp, htransport, hL p.1 p.2 hp1 hp2]

theorem C5_flat_uniform_transport_noop_witness :
    transportOut 2 (707 / 1000) 2 (min (1 / 10) (1 / 10)) (fun _ _ => (5 : ℚ))
        (fun _ _ => ((128 : ℕ) : ℚ) / 255) (0, 0) = ((128 : ℕ) : ℚ) / 255 ∧
    simulateLava 2 (707 / 1000) 2 (1 / 1000) 0 (1 / 10) (fun _ _ => (5 : ℚ))
        (fun _ _ => 128) 0 0
      = quantizeCell (1 / 1000) (min (1 / 10) (1 / 10)) (((128 : ℕ) : ℚ) / 255) :=
  C5_flat_uniform_transport_noop 2 (707 / 1000) 2 (1 / 1000) (1 / 10)
    (fun _ _ => 5) (fun _ _ => 128) 5 128 (fun _ _ _ _ => rfl)
    (fun _ _ _ _ => rfl) (by norm_num) (by norm_num) (0, 0) (by decide)

unseal Rat.add Rat.mul Rat.inv Rat.sub in
/-- **C5** (counterexample to the claim as stated).  On a flat ground with
a single full cell on a 2×2 grid, the transport step moves mass: the claim
that the transport step is a no-op for *every* thickness configuration
fails (here at the admissible diagonal weight `707/1000`; the computation
runs identically for `1/√2`). -/
theorem C5_counterexample :
    ¬ (∀ (flowN : ℕ) (dk flowRate dt : ℚ) (ground : ℕ → ℕ → ℚ)
        (lava : ℕ → ℕ → ℕ) (g : ℚ), 0 < dk → dk ≤ 1 →
        (∀ a b, a < flowN → b < flowN → ground a b = g) →
        ∀ p ∈ gridSet flowN,
          transportOut flowN dk flowRate (min (1 / 10) dt) ground
            (fun i j => (lava i j : ℚ) / 255) p = (lava p.1 p.2 : ℚ) / 255) := by
  intro h
  have := h 2 (707 / 1000) 2 (1 / 10) (fun _ _ => 0)
    (fun a b => if a = 0 ∧ b = 0 then 255 else 0) 0 (by norm_num) (by norm_num)
    (fun _ _ _ _ => rfl) (0, 0) (by decide)
  exact absurd this (by decide)

/-- **C4** (corrected — amended claim).  `simulateLava` applies rate
parameters without sign clamping.  What does hold: a negative viscosity
behaves exactly like viscosity `0` (the diffusion pass is gated on
`viscosity > 1e-6`), and a tick with negative cooling pointwise *dominates*
the same tick with cooling `0` — negative cooling adds mass rather than
being treated as zero.  The original claim (a negative rate gives the same
grid as rate `0`) is refuted by the counterexample. -/
theorem C4_negative_rates_not_clamped (flowN : ℕ)
    (dk flowRate c ν dt : ℚ) (ground : ℕ → ℕ → ℚ) (lava : ℕ → ℕ → ℕ) :
    (ν < 0 → ∀ a b : ℕ,
      simulateLava flowN dk flowRate c ν dt ground lava a b
        = simulateLava flowN dk flowRate c 0 dt ground lava a b) ∧
    (c ≤ 0 → 0 ≤ dt → ∀ a b : ℕ,
      simulateLava flowN dk flowRate 0 ν dt ground lava a b
        ≤ simulateLava flowN dk flowRate c ν dt ground lava a b) := by
  constructor
  · intro hν a b
    by_cases hact : ∀ q ∈ gridSet flowN, lava q.1 q.2 = 0
    · simp only [simulateLava, if_pos hact]
    · rw [simulateLava_eq_of_active flowN dk flowRate c ν dt ground lava hact,
        simulateLava_eq_of_active flowN dk flowRate c 0 dt ground lava hact,
        if_neg (by linarith), if_neg (by norm_num)]
  · intro hcneg hdt a b
    by_cases hact : ∀ q ∈ gridSet flowN, lava q.1 q.2 = 0
    · simp only [simulateLava, if_pos hact]
      exact le_refl _
    · rw [simulateLava_eq_of_active flowN dk flowRate c ν dt ground lava hact,
        simulateLava_eq_of_active flowN dk flowRate 0 ν dt ground lava hact]
      refine quantizeCell_anti 0 c (min (1 / 10) dt) _ ?_
      have hstep : (0 : ℚ) ≤ min (1 / 10) dt := le_min (by norm_num) hdt
      nlinarith

unseal Rat.add Rat.mul Rat.inv Rat.sub in
/-- Witness for `C4_negative_rates_not_clamped`: on a 1×1 grid holding 128,
the cooling-`(−10)` tick (255) dominates the cooling-`0` tick (128). -/
theorem C4_negative_rates_not_clamped_witness :
    (-10 : ℚ) ≤ 0 ∧ (0 : ℚ) ≤ 1 / 10 ∧ (-1 : ℚ) < 0 ∧
    simulateLava 1 (707 / 1000) 2 0 0 (1 / 10) (fun _ _ => 0)
        (fun _ _ => 128) 0 0
      ≤ simulateLava 1 (707 / 1000) 2 (-10) 0 (1 / 10) (fun _ _ => 0)
        (fun _ _ => 128) 0 0 ∧
    simulateLava 1 (707 / 1000) 2 0 (-1) (1 / 10) (fun _ _ => 0)
        (fun _ _ => 128) 0 0
      = simulateLava 1 (707 / 1000) 2 0 0 (1 / 10) (fun _ _ => 0)
        (fun _ _ => 128) 0 0 := by
  refine ⟨by norm_num, by norm_num, by norm_num, ?_, ?_⟩
  · exact (C4_negative_rates_not_clamped 1 (707 / 1000) 2 (-10) 0 (1 / 10)
      (fun _ _ => 0) (fun _ _ => 128)).2 (by norm_num) (by norm_num) 0 0
  · exact (C4_negative_rates_not_clamped 1 (707 / 1000) 2 0 (-1) (1 / 10)
      (fun _ _ => 0) (fun _ _ => 128)).1 (by norm_num) 0 0

unseal Rat.add Rat.mul Rat.inv Rat.sub in
/-- **C4** (counterexample to the claim as stated).  A tick with negative
cooling is *not* the tick with cooling `0`: on a 1×1 grid holding 128,
cooling `−10` yields 255 while cooling `0` yields 128 — the negative rate
adds mass instead of being clamped to zero. -/
theorem C4_counterexample :
    ¬ (∀ (flowN : ℕ) (dk flowRate c ν dt : ℚ) (ground : ℕ → ℕ → ℚ)
        (lava : ℕ → ℕ → ℕ),
        (flowRate < 0 → ∀ p ∈ gridSet flowN,
          simulateLava flowN dk flowRate c ν dt ground lava p.1 p.2
            = simulateLava flowN dk 0 c ν dt ground lava p.1 p.2) ∧
        (ν < 0 → ∀ p ∈ gridSet flowN,
          simulateLava flowN dk flowRate c ν dt ground lava p.1 p.2
            = simulateLava flowN dk flowRate c 0 dt ground lava p.1 p.2) ∧
        (c < 0 → ∀ p ∈ gridSet flowN,
          simulateLava flowN dk flowRate c ν dt ground lava p.1 p.2
            = simulateLava flowN dk flowRate 0 ν dt ground lava p.1 p.2)) := by
  intro h
  have := (h 1 (707 / 1000) 2 (-10) 0 (1 / 10) (fun _ _ => 0)
    (fun _ _ => 128)).2.2 (by norm_num) (0, 0) (by decide)
  exact absurd this (by decide)

theorem gridSet_card (flowN : ℕ) : (gridSet flowN).card = flowN * flowN := by
  simp [gridSet]

theorem totalThickness_cast (flowN : ℕ) (lava : ℕ → ℕ → ℕ) :
    ((totalThickness flowN lava : ℕ) : ℚ)
      = ∑ p ∈ gridSet flowN, ((lava p.1 p.2 : ℕ) : ℚ) := by
  unfold totalThickness
  push_cast
  rfl

/-- **C2** (corrected — amended claim).  With `cooling = 0` and
`viscosity = 0` (and the documented non-negative mobility and `dt`), every
`simulateLava` tick satisfies: (a) the total quantized thickness is
non-increasing; (b) the transport redistribution conserves mass exactly —
each source cell's `stay` plus its distributed shares sum to its previous
normalized value; (c) *provided no cell's post-transport value exceeds the
8-bit maximum* (`out ≤ 1`), the per-tick decrease is at most `N²` (one
floor-quantization unit per cell).  The unconditional `N²` bound of the
original claim is false — clamping at 255 can lose more (see the
counterexample). -/
theorem C2_mass_conservation (flowN : ℕ) (dk flowRate dt : ℚ)
    (ground : ℕ → ℕ → ℚ) (lava : ℕ → ℕ → ℕ)
    (hfr : 0 ≤ flowRate) (hdt : 0 ≤ dt) :
    totalThickness flowN (simulateLava flowN dk flowRate 0 0 dt ground lava)
      ≤ totalThickness flowN lava ∧
    (∀ src ∈ gridSet flowN,
      ∑ tgt ∈ gridSet flowN,
        giveAmt flowN dk flowRate (min (1 / 10) dt) ground
          (fun i j => (lava i j : ℚ) / 255) src tgt
        = (lava src.1 src.2 : ℚ) / 255) ∧
    ((∀ p ∈ gridSet flowN,
        transportOut flowN dk flowRate (min (1 / 10) dt) ground
          (fun i j => (lava i j : ℚ) / 255) p ≤ 1) →
      (totalThickness flowN lava : ℚ)
        ≤ (totalThickness flowN
            (simulateLava flowN dk flowRate 0 0 dt ground lava) : ℚ)
          + flowN * flowN) := by
  have hstep : (0 : ℚ) ≤ min (1 / 10) dt := le_min (by norm_num) hdt
  have hfs : 0 ≤ flowRate * min (1 / 10) dt := mul_nonneg hfr hstep
  have htnn : ∀ i j : ℕ, (0 : ℚ) ≤ (lava i j : ℚ) / 255 := fun i j => by
    positivity
  have houtnn : ∀ p : ℕ × ℕ,
      0 ≤ transportOut flowN dk flowRate (min (1 / 10) dt) ground
        (fun i j => (lava i j : ℚ) / 255) p := fun p =>
    transportOut_nonneg _ _ _ _ _ _ _ hfs htnn
  have hsumout : ∑ p ∈ gridSet flowN,
      transportOut flowN dk flowRate (min (1 / 10) dt) ground
        (fun i j => (lava i j : ℚ) / 255) p
      = (totalThickness flowN lava : ℚ) / 255 := by
    rw [sum_transportOut, totalThickness_cast, ← Finset.sum_div]
  refine ⟨?_, ?_, ?_⟩
  · by_cases hact : ∀ q ∈ gridSet flowN, lava q.1 q.2 = 0
    · simp only [simulateLava, if_pos hact]
      exact le_refl _
    · have key : ((totalThickness flowN
          (simulateLava flowN dk flowRate 0 0 dt ground lava) : ℕ) : ℚ)
          ≤ ((totalThickness flowN lava : ℕ) : ℚ) := by
        rw [totalThickness_cast flowN
          (simulateLava flowN dk flowRate 0 0 dt ground lava)]
        have hrw : ∀ p ∈ gridSet flowN,
            ((simulateLava flowN dk flowRate 0 0 dt ground lava p.1 p.2 : ℕ) : ℚ)
            = ((quantizeCell 0 (min (1 / 10) dt)
                (transportOut flowN dk flowRate (min (1 / 10) dt) ground
                  (fun i j => (lava i j : ℚ) / 255) p) : ℕ) : ℚ) := by
          intro p hp
          rw [simulateLava_zero_visc flowN dk flowRate 0 dt ground lava hact]
        rw [Finset.sum_congr rfl hrw]
        calc ∑ p ∈ gridSet flowN,
              ((quantizeCell 0 (min (1 / 10) dt)
                (transportOut flowN dk flowRate (min (1 / 10) dt) ground
                  (fun i j => (lava i j : ℚ) / 255) p) : ℕ) : ℚ)
            ≤ ∑ p ∈ gridSet flowN,
              transportOut flowN dk flowRate (min (1 / 10) dt) ground
                (fun i j => (lava i j : ℚ) / 255) p * 255 := by
              refine Finset.sum_le_sum ?_
              intro p hp
              exact quantizeCell_le _ _ (houtnn p)
          _ = (∑ p ∈ gridSet flowN,
              transportOut flowN dk flowRate (min (1 / 10) dt) ground
                (fun i j => (lava i j : ℚ) / 255) p) * 255 := by
              rw [Finset.sum_mul]
          _ = (totalThickness flowN lava : ℚ) / 255 * 255 := by rw [hsumout]
          _ = (totalThickness flowN lava : ℚ) := by
              rw [div_mul_cancel₀]
              norm_num
      exact_mod_cast key
  · intro src hsrc
    exact sum_giveAmt flowN dk flowRate (min (1 / 10) dt) ground
      (fun i j => (lava i j : ℚ) / 255) hsrc
  · intro hbound
    by_cases hact : ∀ q ∈ gridSet flowN, lava q.1 q.2 = 0
    · simp only [simulateLava, if_pos hact]
      have : (0 : ℚ) ≤ (flowN : ℚ) * flowN := by positivity
      linarith
    · have hrw : ∀ p ∈ gridSet flowN,
          ((simulateLava flowN dk flowRate 0 0 dt ground lava p.1 p.2 : ℕ) : ℚ)
          = ((quantizeCell 0 (min (1 / 10) dt)
              (transportOut flowN dk flowRate (min (1 / 10) dt) ground
                (fun i j => (lava i j : ℚ) / 255) p) : ℕ) : ℚ) := by
        intro p hp
        rw [simulateLava_zero_visc flowN dk flowRate 0 dt ground lava hact]
      rw [totalThickness_cast flowN
        (simulateLava flowN dk flowRate 0 0 dt ground lava),
        Finset.sum_congr rfl hrw]
      have hlow : ∑ p ∈ gridSet flowN,
          (transportOut flowN dk flowRate (min (1 / 10) dt) ground
            (fun i j => (lava i j : ℚ) / 255) p * 255 - 1)
          ≤ ∑ p ∈ gridSet flowN,
          ((quantizeCell 0 (min (1 / 10) dt)
            (transportOut flowN dk flowRate (min (1 / 10) dt) ground
              (fun i j => (lava i j : ℚ) / 255) p) : ℕ) : ℚ) := by
        refine Finset.sum_le_sum ?_
        intro p hp
        exact quantizeCell_ge _ _ (houtnn p) (hbound p hp)
      have hexp : ∑ p ∈ gridSet flowN,
          (transportOut flowN dk flowRate (min (1 / 10) dt) ground
            (fun i j => (lava i j : ℚ) / 255) p * 255 - 1)
          = (totalThickness flowN lava : ℚ) - flowN * flowN := by
        rw [Finset.sum_sub_distrib, ← Finset.sum_mul, hsumout,
          div_mul_cancel₀ _ (by norm_num : (255 : ℚ) ≠ 0)]
        simp [gridSet_card]
      linarith [hlow, hexp.symm.le]

unseal Rat.add Rat.mul Rat.inv Rat.sub in
/-- **C2** (counterexample to the claim as stated).  One tick can lose far
more than `N²` quantization units: on a 2×2 grid (`N² = 4`) with two full
cells above a deep pit, both sources pour into the pit, the pit clamps at
255, and the total drops from 510 to 260 — a loss of 250 units.  (Run at
the admissible diagonal weight `707/1000`; every drop along the diagonal is
zero or guarded, so the figures do not depend on it.) -/
theorem C2_counterexample :
    ¬ (∀ (flowN : ℕ) (dk flowRate dt : ℚ) (ground : ℕ → ℕ → ℚ)
        (lava : ℕ → ℕ → ℕ), 0 < dk → dk ≤ 1 → 0 ≤ flowRate → 0 ≤ dt →
        (totalThickness flowN lava : ℚ)
          ≤ (totalThickness flowN
              (simulateLava flowN dk flowRate 0 0 dt ground lava) : ℚ)
            + flowN * flowN) := by
  intro h
  have := h 2 (707 / 1000) 2 (1 / 10)
    (fun a b => if a = 1 ∧ b = 1 then 0 else 100)
    (fun a b => if (a = 1 ∧ b = 0) ∨ (a = 0 ∧ b = 1) then 255 else 0)
    (by norm_num) (by norm_num) (by norm_num) (by norm_num)
  rw [show totalThickness 2
      (simulateLava 2 (707 / 1000) 2 0 0 (1 / 10)
        (fun a b => if a = 1 ∧ b = 1 then 0 else 100)
        (fun a b => if (a = 1 ∧ b = 0) ∨ (a = 0 ∧ b = 1) then 255 else 0))
      = 260 from by decide,
    show totalThickness 2
      (fun a b => if (a = 1 ∧ b = 0) ∨ (a = 0 ∧ b = 1) then 255 else 0)
      = 510 from by decide] at this
  norm_num at this

unseal Rat.add Rat.mul Rat.inv Rat.sub in
/-- Witness for `C2_mass_conservation` at the counterexample grid: the
hypotheses hold and the total indeed does not increase (510 → 260). -/
theorem C2_mass_conservation_witness :
    (0 : ℚ) ≤ 2 ∧ (0 : ℚ) ≤ 1 / 10 ∧
    totalThickness 2
      (simulateLava 2 (707 / 1000) 2 0 0 (1 / 10)
        (fun a b => if a = 1 ∧ b = 1 then 0 else 100)
        (fun a b => if (a = 1 ∧ b = 0) ∨ (a = 0 ∧ b = 1) then 255 else 0))
      ≤ totalThickness 2
        (fun a b => if (a = 1 ∧ b = 0) ∨ (a = 0 ∧ b = 1) then 255 else 0) := by
  refine ⟨by norm_num, by norm_num, ?_⟩
  exact (C2_mass_conservation 2 (707 / 1000) 2 (1 / 10)
    (fun a b => if a = 1 ∧ b = 1 then 0 else 100)
    (fun a b => if (a = 1 ∧ b = 0) ∨ (a = 0 ∧ b = 1) then 255 else 0)
    (by norm_num) (by norm_num)).1

/-! ## Injection lemmas -/

theorem clamp01_nonneg (x : ℚ) : 0 ≤ clamp01 x := by
  simp only [clamp01, min_def, max_def]
  split_ifs <;> linarith

theorem clamp01_le_one (x : ℚ) : clamp01 x ≤ 1 := by
  simp only [clamp01, min_def, max_def]
  split_ifs <;> linarith

theorem clamp01_idem (x : ℚ) : clamp01 (clamp01 x) = clamp01 x := by
  simp only [clamp01, min_def, max_def]
  split_ifs <;> linarith

theorem clamp01_one_sub_clamp01 (v : ℚ) :
    clamp01 (1 - clamp01 v) = clamp01 (1 - v) := by
  simp only [clamp01, min_def, max_def]
  split_ifs <;> linarith

theorem toUint8_le (z : ℤ) : toUint8 z ≤ 255 := by
  unfold toUint8
  omega

/-- **C3** (corrected — amended claim).  `injectLavaUV` with coordinates
outside `[0,1]²` is clamped harmlessly: the call equals the call at the
clamped coordinates and cells outside the grid are never touched.  A call
with `amount = 0` is a no-op.  A *negative radius fraction is not a no-op*:
`R = max(2, ⌊N·radius⌋)` clamps it up to the minimum disc radius 2, so a
negative radius behaves exactly like radius `0` (which also yields
`R = 2`); the original no-op claim is refuted by the counterexample. -/
theorem C3_injection_edge_cases (flowN : ℕ) (u v amount radius : ℚ)
    (lava : ℕ → ℕ → ℕ) (h255 : ∀ a b, lava a b ≤ 255) :
    (∀ ix iy : ℕ,
      injectLavaUV flowN u v amount radius lava ix iy
        = injectLavaUV flowN (clamp01 u) (clamp01 v) amount radius lava ix iy) ∧
    (∀ ix iy : ℕ, flowN ≤ ix ∨ flowN ≤ iy →
      injectLavaUV flowN u v amount radius lava ix iy = lava ix iy) ∧
    (amount = 0 → ∀ ix iy : ℕ,
      injectLavaUV flowN u v amount radius lava ix iy = lava ix iy) ∧
    (radius < 0 → ∀ ix iy : ℕ,
      injectLavaUV flowN u v amount radius lava ix iy
        = injectLavaUV flowN u v amount 0 lava ix iy) := by
  refine ⟨?_, ?_, ?_, ?_⟩
  · intro ix iy
    simp only [injectLavaUV, clamp01_idem, clamp01_one_sub_clamp01]
  · intro ix iy hout
    simp only [injectLavaUV]
    rw [if_neg]
    rintro ⟨h1, h2, -⟩
    omega
  · intro h0 ix iy
    subst h0
    simp only [injectLavaUV, Int.floor_zero, Int.cast_zero, zero_mul,
      add_zero]
    split_ifs with h
    · have hle : (lava ix iy : ℤ) ≤ 255 := by exact_mod_cast h255 ix iy
      unfold toUint8
      omega
    · rfl
  · intro hrneg ix iy
    have hfl : Int.floor ((flowN : ℚ) * radius) ≤ 0 :=
      Int.floor_nonpos (mul_nonpos_of_nonneg_of_nonpos (by positivity)
        (le_of_lt hrneg))
    have hR : max 2 (Int.floor ((flowN : ℚ) * radius))
        = max 2 (Int.floor ((flowN : ℚ) * 0)) := by
      rw [mul_zero, Int.floor_zero]
      omega
    simp only [injectLavaUV, hR]

unseal Rat.add Rat.mul Rat.inv Rat.sub in
/-- Witness for `C3_injection_edge_cases` on a 5×5 grid holding 7
everywhere. -/
theorem C3_injection_edge_cases_witness :
    ((∀ a b : ℕ, (fun _ _ : ℕ => 7) a b ≤ 255) ∧
      injectLavaUV 5 (3 / 2) (-1 / 2) 100 (1 / 10) (fun _ _ => 7) 2 2
        = injectLavaUV 5 (clamp01 (3 / 2)) (clamp01 (-1 / 2)) 100 (1 / 10)
            (fun _ _ => 7) 2 2) ∧
    injectLavaUV 5 (1 / 2) (1 / 2) 0 (1 / 10) (fun _ _ => 7) 2 2 = 7 ∧
    injectLavaUV 5 (1 / 2) (1 / 2) 100 (-1) (fun _ _ => 7) 2 2
      = injectLavaUV 5 (1 / 2) (1 / 2) 100 0 (fun _ _ => 7) 2 2 := by
  refine ⟨⟨fun _ _ => by norm_num, ?_⟩, ?_, ?_⟩
  · exact (C3_injection_edge_cases 5 (3 / 2) (-1 / 2) 100 (1 / 10)
      (fun _ _ => 7) (fun _ _ => by norm_num)).1 2 2
  · exact (C3_injection_edge_cases 5 (1 / 2) (1 / 2) 0 (1 / 10)
      (fun _ _ => 7) (fun _ _ => by norm_num)).2.2.1 rfl 2 2
  · exact (C3_injection_edge_cases 5 (1 / 2) (1 / 2) 100 (-1)
      (fun _ _ => 7) (fun _ _ => by norm_num)).2.2.2 (by norm_num) 2 2

unseal Rat.add Rat.mul Rat.inv Rat.sub in
/-- **C3** (counterexample to the claim as stated).  A call with a negative
radius fraction is *not* a no-op: injecting amount 255 with radius `−1`
into an all-zero 5×5 grid sets the centre cell to 255 (the radius is
clamped up to the minimum disc radius 2). -/
theorem C3_counterexample :
    ¬ (∀ (flowN : ℕ) (u v amount radius : ℚ) (lava : ℕ → ℕ → ℕ),
        (∀ a b, lava a b ≤ 255) → radius < 0 →
        ∀ ix iy : ℕ,
          injectLavaUV flowN u v amount radius lava ix iy = lava ix iy) := by
  intro h
  have := h 5 (1 / 2) (1 / 2) 255 (-1) (fun _ _ => 0)
    (fun _ _ => Nat.zero_le 255) (by norm_num) 2 2
  exact absurd this (by decide)

theorem floor_mul_weight (A : ℤ) (w : ℚ) (hA : 0 ≤ A) (hw0 : 0 ≤ w)
    (hw1 : w ≤ 1) :
    0 ≤ Int.floor ((A : ℚ) * w) ∧ Int.floor ((A : ℚ) * w) ≤ A := by
  constructor
  · exact Int.floor_nonneg.mpr (mul_nonneg (by exact_mod_cast hA) hw0)
  · have hA' : (0 : ℚ) ≤ ((A : ℤ) : ℚ) := by exact_mod_cast hA
    have h1 : (A : ℚ) * w ≤ ((A : ℤ) : ℚ) := by nlinarith
    calc Int.floor ((A : ℚ) * w) ≤ Int.floor (((A : ℤ) : ℚ)) :=
        Int.floor_le_floor h1
      _ = A := Int.floor_intCast A

/-- **C6** (corrected — amended claim).  For positive `amount` and
`radius`, `injectLavaUV` modifies only cells of the disc
`dx² + dy² ≤ R²`, `R = max(2, ⌊N·radius⌋)`, centred at the *floor-mapped*
cell `(⌊rU·(N−1)⌋, ⌊rV·(N−1)⌋)` (not the nearest cell — see the
counterexample); every cell outside the disc keeps its value; the centre
cell receives the maximal weighted addition `⌊amount⌋` (weight
`1 − d²/R² = 1` there), every cell's addition is bounded by the centre's,
and every cell is clamped at 255. -/
theorem C6_injection_locality (flowN : ℕ) (u v amount radius : ℚ)
    (lava : ℕ → ℕ → ℕ) (h255 : ∀ a b, lava a b ≤ 255)
    (hN : 1 ≤ flowN) (ha : 0 < amount) :
    (∀ ix iy : ℕ,
      (max 2 (Int.floor ((flowN : ℚ) * radius))) *
          (max 2 (Int.floor ((flowN : ℚ) * radius)))
        < ((ix : ℤ) - Int.floor (clamp01 u * ((flowN : ℚ) - 1))) *
            ((ix : ℤ) - Int.floor (clamp01 u * ((flowN : ℚ) - 1))) +
          ((iy : ℤ) - Int.floor (clamp01 (1 - v) * ((flowN : ℚ) - 1))) *
            ((iy : ℤ) - Int.floor (clamp01 (1 - v) * ((flowN : ℚ) - 1))) →
      injectLavaUV flowN u v amount radius lava ix iy = lava ix iy) ∧
    (injectLavaUV flowN u v amount radius lava
        (Int.floor (clamp01 u * ((flowN : ℚ) - 1))).toNat
        (Int.floor (clamp01 (1 - v) * ((flowN : ℚ) - 1))).toNat
      = min 255 (lava (Int.floor (clamp01 u * ((flowN : ℚ) - 1))).toNat
          (Int.floor (clamp01 (1 - v) * ((flowN : ℚ) - 1))).toNat
        + (Int.floor amount).toNat)) ∧
    (∀ ix iy : ℕ,
      injectLavaUV flowN u v amount radius lava ix iy
        ≤ min 255 (lava ix iy + (Int.floor amount).toNat)) ∧
    (∀ ix iy : ℕ, injectLavaUV flowN u v amount radius lava ix iy ≤ 255) := by
  have hR2 : (2 : ℤ) ≤ max 2 (Int.floor ((flowN : ℚ) * radius)) :=
    le_max_left _ _
  have hRpos : (0 : ℤ) < max 2 (Int.floor ((flowN : ℚ) * radius)) := by omega
  have hRRpos : (0 : ℤ) < max 2 (Int.floor ((flowN : ℚ) * radius)) *
      max 2 (Int.floor ((flowN : ℚ) * radius)) := mul_pos hRpos hRpos
  have hadd0 : 0 ≤ Int.floor amount := Int.floor_nonneg.mpr (le_of_lt ha)
  have hcx0 : 0 ≤ Int.floor (clamp01 u * ((flowN : ℚ) - 1)) := by
    refine Int.floor_nonneg.mpr ?_
    have h1 : (1 : ℚ) ≤ (flowN : ℚ) := by exact_mod_cast hN
    have := clamp01_nonneg u
    nlinarith
  have hcy0 : 0 ≤ Int.floor (clamp01 (1 - v) * ((flowN : ℚ) - 1)) := by
    refine Int.floor_nonneg.mpr ?_
    have h1 : (1 : ℚ) ≤ (flowN : ℚ) := by exact_mod_cast hN
    have := clamp01_nonneg (1 - v)
    nlinarith
  have hcxlt : Int.floor (clamp01 u * ((flowN : ℚ) - 1)) < flowN := by
    have h1 : clamp01 u * ((flowN : ℚ) - 1) ≤ (flowN : ℚ) - 1 := by
      have h2 : (1 : ℚ) ≤ (flowN : ℚ) := by exact_mod_cast hN
      nlinarith [clamp01_le_one u, clamp01_nonneg u]
    have h3 : ((flowN : ℚ) - 1) < flowN := by linarith
    have := Int.floor_le_floor (le_of_lt (lt_of_le_of_lt h1 h3))
    have h4 : Int.floor ((flowN : ℚ)) = (flowN : ℤ) := Int.floor_natCast flowN
    calc Int.floor (clamp01 u * ((flowN : ℚ) - 1))
        ≤ Int.floor ((flowN : ℚ) - 1) := Int.floor_le_floor h1
      _ = (flowN : ℤ) - 1 := by
          have hcast : ((flowN : ℚ) - 1) = (((flowN : ℤ) - 1 : ℤ) : ℚ) := by
            push_cast
            ring
          rw [hcast, Int.floor_intCast]
      _ < (flowN : ℤ) := by omega
  have hcylt : Int.floor (clamp01 (1 - v) * ((flowN : ℚ) - 1)) < flowN := by
    have h1 : clamp01 (1 - v) * ((flowN : ℚ) - 1) ≤ (flowN : ℚ) - 1 := by
      have h2 : (1 : ℚ) ≤ (flowN : ℚ) := by exact_mod_cast hN
      nlinarith [clamp01_le_one (1 - v), clamp01_nonneg (1 - v)]
    have h4 : Int.floor ((flowN : ℚ)) = (flowN : ℤ) := Int.floor_natCast flowN
    calc Int.floor (clamp01 (1 - v) * ((flowN : ℚ) - 1))
        ≤ Int.floor ((flowN : ℚ) - 1) := Int.floor_le_floor h1
      _ = (flowN : ℤ) - 1 := by
          have hcast : ((flowN : ℚ) - 1) = (((flowN : ℤ) - 1 : ℤ) : ℚ) := by
            push_cast
            ring
          rw [hcast, Int.floor_intCast]
      _ < (flowN : ℤ) := by omega
  refine ⟨?_, ?_, ?_, ?_⟩
  · intro ix iy hfar
    simp only [injectLavaUV]
    rw [if_neg]
    rintro ⟨-, -, hd⟩
    rw [div_le_one (by exact_mod_cast hRRpos)] at hd
    have hd' : ((ix : ℤ) - Int.floor (clamp01 u * ((flowN : ℚ) - 1))) *
          ((ix : ℤ) - Int.floor (clamp01 u * ((flowN : ℚ) - 1))) +
        ((iy : ℤ) - Int.floor (clamp01 (1 - v) * ((flowN : ℚ) - 1))) *
          ((iy : ℤ) - Int.floor (clamp01 (1 - v) * ((flowN : ℚ) - 1)))
        ≤ max 2 (Int.floor ((flowN : ℚ) * radius)) *
          max 2 (Int.floor ((flowN : ℚ) * radius)) := by exact_mod_cast hd
    omega
  · simp only [injectLavaUV]
    rw [if_pos]
    · have hdx : ((Int.floor (clamp01 u * ((flowN : ℚ) - 1))).toNat : ℤ)
          - Int.floor (clamp01 u * ((flowN : ℚ) - 1)) = 0 := by omega
      have hdy : ((Int.floor (clamp01 (1 - v) * ((flowN : ℚ) - 1))).toNat : ℤ)
          - Int.floor (clamp01 (1 - v) * ((flowN : ℚ) - 1)) = 0 := by omega
      rw [hdx, hdy]
      simp only [mul_zero, zero_mul, add_zero, Int.cast_zero, zero_div,
        sub_zero, mul_one, Int.floor_intCast]
      have hlv : (lava (Int.floor (clamp01 u * ((flowN : ℚ) - 1))).toNat
          (Int.floor (clamp01 (1 - v) * ((flowN : ℚ) - 1))).toNat : ℤ) ≤ 255 :=
        by exact_mod_cast h255 _ _
      unfold toUint8
      omega
    · refine ⟨by omega, by omega, ?_⟩
      have hdx : ((Int.floor (clamp01 u * ((flowN : ℚ) - 1))).toNat : ℤ)
          - Int.floor (clamp01 u * ((flowN : ℚ) - 1)) = 0 := by omega
      have hdy : ((Int.floor (clamp01 (1 - v) * ((flowN : ℚ) - 1))).toNat : ℤ)
          - Int.floor (clamp01 (1 - v) * ((flowN : ℚ) - 1)) = 0 := by omega
      rw [hdx, hdy]
      simp only [mul_zero, zero_mul, add_zero, Int.cast_zero, zero_div]
      norm_num
  · intro ix iy
    simp only [injectLavaUV]
    split_ifs with h
    · obtain ⟨hix, hiy, hd⟩ := h
      rw [div_le_one (by exact_mod_cast hRRpos)] at hd
      have hw0 : (0 : ℚ) ≤ 1 -
          (((((ix : ℤ) - Int.floor (clamp01 u * ((flowN : ℚ) - 1))) *
            ((ix : ℤ) - Int.floor (clamp01 u * ((flowN : ℚ) - 1))) +
            ((iy : ℤ) - Int.floor (clamp01 (1 - v) * ((flowN : ℚ) - 1))) *
            ((iy : ℤ) - Int.floor (clamp01 (1 - v) * ((flowN : ℚ) - 1))) : ℤ)) : ℚ) /
          (((max 2 (Int.floor ((flowN : ℚ) * radius)) *
            max 2 (Int.floor ((flowN : ℚ) * radius)) : ℤ)) : ℚ) := by
        rw [sub_nonneg, div_le_one (by exact_mod_cast hRRpos)]
        exact_mod_cast hd
      have hw1 : 1 -
          (((((ix : ℤ) - Int.floor (clamp01 u * ((flowN : ℚ) - 1))) *
            ((ix : ℤ) - Int.floor (clamp01 u * ((flowN : ℚ) - 1))) +
            ((iy : ℤ) - Int.floor (clamp01 (1 - v) * ((flowN : ℚ) - 1))) *
            ((iy : ℤ) - Int.floor (clamp01 (1 - v) * ((flowN : ℚ) - 1))) : ℤ)) : ℚ) /
          (((max 2 (Int.floor ((flowN : ℚ) * radius)) *
            max 2 (Int.floor ((flowN : ℚ) * radius)) : ℤ)) : ℚ) ≤ 1 := by
        have hnum : (0 : ℚ) ≤
            (((((ix : ℤ) - Int.floor (clamp01 u * ((flowN : ℚ) - 1))) *
              ((ix : ℤ) - Int.floor (clamp01 u * ((flowN : ℚ) - 1))) +
              ((iy : ℤ) - Int.floor (clamp01 (1 - v) * ((flowN : ℚ) - 1))) *
              ((iy : ℤ) - Int.floor (clamp01 (1 - v) * ((flowN : ℚ) - 1))) : ℤ)) : ℚ) := by
          have : (0 : ℤ) ≤ ((ix : ℤ) - Int.floor (clamp01 u * ((flowN : ℚ) - 1))) *
              ((ix : ℤ) - Int.floor (clamp01 u * ((flowN : ℚ) - 1))) +
              ((iy : ℤ) - Int.floor (clamp01 (1 - v) * ((flowN : ℚ) - 1))) *
              ((iy : ℤ) - Int.floor (clamp01 (1 - v) * ((flowN : ℚ) - 1))) :=
            add_nonneg (mul_self_nonneg _) (mul_self_nonneg _)
          exact_mod_cast this
        have hden : (0 : ℚ) < (((max 2 (Int.floor ((flowN : ℚ) * radius)) *
            max 2 (Int.floor ((flowN : ℚ) * radius)) : ℤ)) : ℚ) := by
          exact_mod_cast hRRpos
        have := div_nonneg hnum (le_of_lt hden)
        linarith
      have hfw := floor_mul_weight (Int.floor amount) _ hadd0 hw0 hw1
      have hlv : (lava ix iy : ℤ) ≤ 255 := by exact_mod_cast h255 ix iy
      unfold toUint8
      omega
    · have := h255 ix iy
      omega
  · intro ix iy
    simp only [injectLavaUV]
    split_ifs with h
    · exact toUint8_le _
    · exact h255 ix iy

unseal Rat.add Rat.mul Rat.inv Rat.sub in
/-- Witness for `C6_injection_locality` on a 5×5 grid: injecting 100 at the
centre puts 100 in the centre cell. -/
theorem C6_injection_locality_witness :
    (1 ≤ 5 ∧ (0 : ℚ) < 100) ∧
    injectLavaUV 5 (1 / 2) (1 / 2) 100 (1 / 10) (fun _ _ => 0)
        (Int.floor (clamp01 (1 / 2) * ((5 : ℚ) - 1))).toNat
        (Int.floor (clamp01 (1 - 1 / 2) * ((5 : ℚ) - 1))).toNat
      = min 255 ((fun _ _ : ℕ => 0)
          (Int.floor (clamp01 (1 / 2) * ((5 : ℚ) - 1))).toNat
          (Int.floor (clamp01 (1 - 1 / 2) * ((5 : ℚ) - 1))).toNat
        + (Int.floor (100 : ℚ)).toNat) := by
  refine ⟨⟨by norm_num, by norm_num⟩, ?_⟩
  exact (C6_injection_locality 5 (1 / 2) (1 / 2) 100 (1 / 10)
    (fun _ _ => 0) (fun _ _ => Nat.zero_le 255) (by norm_num)
    (by norm_num)).2.1

unseal Rat.add Rat.mul Rat.inv Rat.sub in
/-- **C6** (counterexample to the claim as stated).  The disc is centred at
the floor-mapped cell, not at the nearest cell: at `u = 19/40` on a 5×5
grid the mapped coordinate is `1.9`, the nearest cell is 2 but the code
centres at 1, and cell `(0,0)` — outside the disc around the nearest cell
(distance² 8 > R² = 4) — is modified from 0 to 50. -/
theorem C6_counterexample :
    ¬ (∀ (flowN : ℕ) (u v amount radius : ℚ) (lava : ℕ → ℕ → ℕ),
        (∀ a b, lava a b ≤ 255) → 0 < amount → 0 < radius →
        ∀ ix iy : ℕ,
          (max 2 (Int.floor ((flowN : ℚ) * radius))) *
              (max 2 (Int.floor ((flowN : ℚ) * radius)))
            < ((ix : ℤ) - specNearestIndex flowN (clamp01 u)) *
                ((ix : ℤ) - specNearestIndex flowN (clamp01 u)) +
              ((iy : ℤ) - specNearestIndex flowN (clamp01 (1 - v))) *
                ((iy : ℤ) - specNearestIndex flowN (clamp01 (1 - v))) →
          injectLavaUV flowN u v amount radius lava ix iy = lava ix iy) := by
  intro h
  have := h 5 (19 / 40) (21 / 40) 100 (1 / 10) (fun _ _ => 0)
    (fun _ _ => Nat.zero_le 255) (by norm_num) (by norm_num) 0 0 (by decide)
  exact absurd this (by decide)

/-! ## Viscosity-pass lemmas -/

theorem shiftA (N : ℕ) (f : ℕ → ℚ) :
    ∑ x ∈ Finset.range N, (if 0 < x then f (x - 1) else 0)
      = ∑ x ∈ Finset.range N, (if x + 1 < N then f x else 0) := by
  cases N with
  | zero => simp
  | succ m =>
    rw [Finset.sum_range_succ', Finset.sum_range_succ]
    simp only [Nat.add_sub_cancel, Nat.zero_lt_succ, if_true,
      if_neg (lt_irrefl 0), if_neg (show ¬m + 1 < m + 1 by omega), add_zero]
    refine Finset.sum_congr rfl ?_
    intro x hx
    rw [if_pos (Nat.succ_lt_succ (Finset.mem_range.mp hx))]

theorem shiftB (N : ℕ) (f : ℕ → ℚ) :
    ∑ x ∈ Finset.range N, (if x + 1 < N then f (x + 1) else 0)
      = ∑ x ∈ Finset.range N, (if 0 < x then f x else 0) := by
  cases N with
  | zero => simp
  | succ m =>
    rw [Finset.sum_range_succ, Finset.sum_range_succ']
    simp only [if_neg (show ¬m + 1 < m + 1 by omega), if_neg (lt_irrefl 0),
      Nat.zero_lt_succ, if_true, add_zero]
    refine Finset.sum_congr rfl ?_
    intro x hx
    rw [if_pos (Nat.succ_lt_succ (Finset.mem_range.mp hx))]

/-- The grid total of the viscosity Laplacian, regrouped cell by cell: each
cell contributes one copy of its value per in-range orthogonal neighbour
and `−4` copies of itself. -/
theorem sum_lapDiff (flowN : ℕ) (out : ℕ → ℕ → ℚ) :
    ∑ p ∈ gridSet flowN, lapDiff flowN out p.1 p.2
      = ∑ p ∈ gridSet flowN,
          ((if 0 < p.1 then out p.1 p.2 else 0) +
           (if p.1 + 1 < flowN then out p.1 p.2 else 0) +
           (if 0 < p.2 then out p.1 p.2 else 0) +
           (if p.2 + 1 < flowN then out p.1 p.2 else 0) +
           out p.1 p.2 * (-4)) := by
  unfold lapDiff gridSet
  rw [Finset.sum_product, Finset.sum_product]
  have lhs_split : ∀ x ∈ Finset.range flowN,
      ∑ y ∈ Finset.range flowN,
        (out x y * (-4) +
          (if 0 < x then out (x - 1) y else 0) +
          (if x + 1 < flowN then out (x + 1) y else 0) +
          (if 0 < y then out x (y - 1) else 0) +
          (if y + 1 < flowN then out x (y + 1) else 0))
      = (∑ y ∈ Finset.range flowN, out x y * (-4)) +
        (∑ y ∈ Finset.range flowN, (if 0 < x then out (x - 1) y else 0)) +
        (∑ y ∈ Finset.range flowN, (if x + 1 < flowN then out (x + 1) y else 0)) +
        (∑ y ∈ Finset.range flowN, (if 0 < y then out x (y - 1) else 0)) +
        (∑ y ∈ Finset.range flowN, (if y + 1 < flowN then out x (y + 1) else 0)) := by
    intro x _
    rw [Finset.sum_add_distrib, Finset.sum_add_distrib, Finset.sum_add_distrib,
      Finset.sum_add_distrib]
  have rhs_split : ∀ x ∈ Finset.range flowN,
      ∑ y ∈ Finset.range flowN,
        ((if 0 < x then out x y else 0) +
         (if x + 1 < flowN then out x y else 0) +
         (if 0 < y then out x y else 0) +
         (if y + 1 < flowN then out x y else 0) +
         out x y * (-4))
      = (∑ y ∈ Finset.range flowN, (if 0 < x then out x y else 0)) +
        (∑ y ∈ Finset.range flowN, (if x + 1 < flowN then out x y else 0)) +
        (∑ y ∈ Finset.range flowN, (if 0 < y then out x y else 0)) +
        (∑ y ∈ Finset.range flowN, (if y + 1 < flowN then out x y else 0)) +
        (∑ y ∈ Finset.range flowN, out x y * (-4)) := by
    intro x _
    rw [Finset.sum_add_distrib, Finset.sum_add_distrib, Finset.sum_add_distrib,
      Finset.sum_add_distrib]
  rw [Finset.sum_congr rfl lhs_split, Finset.sum_congr rfl rhs_split]
  rw [Finset.sum_add_distrib, Finset.sum_add_distrib, Finset.sum_add_distrib,
    Finset.sum_add_distrib, Finset.sum_add_distrib, Finset.sum_add_distrib,
    Finset.sum_add_distrib, Finset.sum_add_distrib]
  have hC : ∀ x ∈ Finset.range flowN,
      ∑ y ∈ Finset.range flowN, (if 0 < y then out x (y - 1) else 0)
        = ∑ y ∈ Finset.range flowN, (if y + 1 < flowN then out x y else 0) :=
    fun x _ => shiftA flowN (fun y => out x y)
  have hD : ∀ x ∈ Finset.range flowN,
      ∑ y ∈ Finset.range flowN, (if y + 1 < flowN then out x (y + 1) else 0)
        = ∑ y ∈ Finset.range flowN, (if 0 < y then out x y else 0) :=
    fun x _ => shiftB flowN (fun y => out x y)
  rw [Finset.sum_congr rfl hC, Finset.sum_congr rfl hD]
  have hA : ∑ x ∈ Finset.range flowN,
      ∑ y ∈ Finset.range flowN, (if 0 < x then out (x - 1) y else 0)
      = ∑ x ∈ Finset.range flowN,
        ∑ y ∈ Finset.range flowN, (if x + 1 < flowN then out x y else 0) := by
    rw [Finset.sum_comm]
    refine Eq.trans (Finset.sum_congr rfl fun y _ =>
      shiftA flowN (fun x => out x y)) ?_
    exact Finset.sum_comm
  have hB : ∑ x ∈ Finset.range flowN,
      ∑ y ∈ Finset.range flowN, (if x + 1 < flowN then out (x + 1) y else 0)
      = ∑ x ∈ Finset.range flowN,
        ∑ y ∈ Finset.range flowN, (if 0 < x then out x y else 0) := by
    rw [Finset.sum_comm]
    refine Eq.trans (Finset.sum_congr rfl fun y _ =>
      shiftB flowN (fun x => out x y)) ?_
    exact Finset.sum_comm
  rw [hA, hB]
  ring

/-- **C10** (confirmed).  The diffusion pass uses a fixed centre weight of
`−4` while boundary cells collect fewer than 4 neighbour contributions, so
for every non-negative post-transport field (and non-negative `viscosity`
and `step`) the pass never increases the total scratch mass, and with
`viscosity > 0` and `step > 0` it strictly decreases the total whenever any
boundary cell holds fluid: the pass leaks mass through the grid edges even
with cooling 0. -/
theorem C10_viscosity_boundary_leak (flowN : ℕ) (viscosity step : ℚ)
    (out : ℕ → ℕ → ℚ) (hout : ∀ p ∈ gridSet flowN, 0 ≤ out p.1 p.2)
    (hv : 0 ≤ viscosity) (hstep : 0 ≤ step) :
    (∑ p ∈ gridSet flowN, viscStep flowN viscosity step out p.1 p.2
      ≤ ∑ p ∈ gridSet flowN, out p.1 p.2) ∧
    (∀ b ∈ gridSet flowN,
      b.1 = 0 ∨ b.1 = flowN - 1 ∨ b.2 = 0 ∨ b.2 = flowN - 1 →
      0 < out b.1 b.2 → 0 < viscosity → 0 < step →
      ∑ p ∈ gridSet flowN, viscStep flowN viscosity step out p.1 p.2
        < ∑ p ∈ gridSet flowN, out p.1 p.2) := by
  have hsplit : ∑ p ∈ gridSet flowN, viscStep flowN viscosity step out p.1 p.2
      = (∑ p ∈ gridSet flowN, out p.1 p.2) +
        viscosity * step * ∑ p ∈ gridSet flowN, lapDiff flowN out p.1 p.2 := by
    unfold viscStep
    rw [Finset.sum_add_distrib, ← Finset.mul_sum]
  have hterm : ∀ p ∈ gridSet flowN,
      ((if 0 < p.1 then out p.1 p.2 else 0) +
       (if p.1 + 1 < flowN then out p.1 p.2 else 0) +
       (if 0 < p.2 then out p.1 p.2 else 0) +
       (if p.2 + 1 < flowN then out p.1 p.2 else 0) +
       out p.1 p.2 * (-4)) ≤ 0 := by
    intro p hp
    have h0 := hout p hp
    have e1 : (if 0 < p.1 then out p.1 p.2 else 0) ≤ out p.1 p.2 := by
      split <;> simp [h0]
    have e2 : (if p.1 + 1 < flowN then out p.1 p.2 else 0) ≤ out p.1 p.2 := by
      split <;> simp [h0]
    have e3 : (if 0 < p.2 then out p.1 p.2 else 0) ≤ out p.1 p.2 := by
      split <;> simp [h0]
    have e4 : (if p.2 + 1 < flowN then out p.1 p.2 else 0) ≤ out p.1 p.2 := by
      split <;> simp [h0]
    linarith
  have hlap_nonpos : ∑ p ∈ gridSet flowN, lapDiff flowN out p.1 p.2 ≤ 0 := by
    rw [sum_lapDiff]
    exact Finset.sum_nonpos hterm
  refine ⟨?_, ?_⟩
  · rw [hsplit]
    nlinarith [mul_nonneg hv hstep]
  · intro b hb hbdry hfluid hvpos hsteppos
    have hblt := mem_gridSet.mp hb
    have hbterm : ((if 0 < b.1 then out b.1 b.2 else 0) +
        (if b.1 + 1 < flowN then out b.1 b.2 else 0) +
        (if 0 < b.2 then out b.1 b.2 else 0) +
        (if b.2 + 1 < flowN then out b.1 b.2 else 0) +
        out b.1 b.2 * (-4)) < 0 := by
      have h0 := hout b hb
      have e1 : (if 0 < b.1 then out b.1 b.2 else 0) ≤ out b.1 b.2 := by
        split <;> simp [h0]
      have e2 : (if b.1 + 1 < flowN then out b.1 b.2 else 0) ≤ out b.1 b.2 := by
        split <;> simp [h0]
      have e3 : (if 0 < b.2 then out b.1 b.2 else 0) ≤ out b.1 b.2 := by
        split <;> simp [h0]
      have e4 : (if b.2 + 1 < flowN then out b.1 b.2 else 0) ≤ out b.1 b.2 := by
        split <;> simp [h0]
      rcases hbdry with h | h | h | h
      · rw [if_neg (by omega : ¬0 < b.1)] at *
        linarith
      · rw [if_neg (by omega : ¬b.1 + 1 < flowN)] at *
        linarith
      · rw [if_neg (by omega : ¬0 < b.2)] at *
        linarith
      · rw [if_neg (by omega : ¬b.2 + 1 < flowN)] at *
        linarith
    have hlap_neg : ∑ p ∈ gridSet flowN, lapDiff flowN out p.1 p.2 < 0 := by
      rw [sum_lapDiff]
      calc ∑ p ∈ gridSet flowN,
            ((if 0 < p.1 then out p.1 p.2 else 0) +
             (if p.1 + 1 < flowN then out p.1 p.2 else 0) +
             (if 0 < p.2 then out p.1 p.2 else 0) +
             (if p.2 + 1 < flowN then out p.1 p.2 else 0) +
             out p.1 p.2 * (-4))
          < ∑ p ∈ gridSet flowN, (0 : ℚ) :=
            Finset.sum_lt_sum hterm ⟨b, hb, hbterm⟩
        _ = 0 := Finset.sum_const_zero
    rw [hsplit]
    nlinarith [mul_pos hvpos hsteppos]

unseal Rat.add Rat.mul Rat.inv Rat.sub in
/-- Witness for `C10_viscosity_boundary_leak`: on the 2×2 all-ones field
with `viscosity = 1/100`, `step = 1/10`, the pass strictly loses mass. -/
theorem C10_viscosity_boundary_leak_witness :
    ((0 : ℚ) ≤ 1 / 100 ∧ (0 : ℚ) ≤ 1 / 10 ∧ ((0, 0) : ℕ × ℕ) ∈ gridSet 2 ∧
      (0 : ℚ) < 1) ∧
    ∑ p ∈ gridSet 2, viscStep 2 (1 / 100) (1 / 10) (fun _ _ => 1) p.1 p.2
      < ∑ p ∈ gridSet 2, (fun _ _ : ℕ => (1 : ℚ)) p.1 p.2 := by
  refine ⟨⟨by norm_num, by norm_num, by decide, by norm_num⟩, ?_⟩
  exact (C10_viscosity_boundary_leak 2 (1 / 100) (1 / 10) (fun _ _ => 1)
    (fun p _ => by norm_num) (by norm_num) (by norm_num)).2
    (0, 0) (by decide) (Or.inl rfl) (by norm_num) (by norm_num) (by norm_num)

/-! ## `clearLava` -/

unseal Rat.add Rat.mul Rat.inv Rat.sub in
/-- **C1** (code_bug).  `clearLava` always takes the `realisticSim` branch
(`setupLavaSystem` always constructs the simulator), which zeroes the
thermal engine's cells, empties the vent list, and restores the pristine
height field — but the simple quantized grid, the one the interactive loop
actually simulates and renders, is left untouched.  Concretely: starting
from setup, injecting the default amount 255 at UV `(1/2, 1/2)` puts 255 in
cell `(639, 639)` of the 1280-grid, and after `clearLava` that cell still
holds 255 while the claim (and the spec's `clear()` contract) requires
every fluid cell of both engines to be zero. -/
theorem C1_clearLava_leaves_simple_grid :
    (clearLava 1280 { setupLavaSystem 1280 1024 (fun _ => 0) with
        lava := injectLavaUV 1280 (1 / 2) (1 / 2) 255 (1 / 1000)
          (setupLavaSystem 1280 1024 (fun _ => 0)).lava }).lava 639 639
      = 255 ∧
    (clearLava 1280 { setupLavaSystem 1280 1024 (fun _ => 0) with
        lava := injectLavaUV 1280 (1 / 2) (1 / 2) 255 (1 / 1000)
          (setupLavaSystem 1280 1024 (fun _ => 0)).lava }).persistentVents
      = [] ∧
    (∀ x y : ℕ, x < 1280 → y < 1280 →
      ((clearLava 1280 { setupLavaSystem 1280 1024 (fun _ => 0) with
          lava := injectLavaUV 1280 (1 / 2) (1 / 2) 255 (1 / 1000)
            (setupLavaSystem 1280 1024 (fun _ => 0)).lava
        }).realisticSim.lavaField x y).thickness = 0) ∧
    (∀ k : ℕ,
      (clearLava 1280 { setupLavaSystem 1280 1024 (fun _ => 0) with
          lava := injectLavaUV 1280 (1 / 2) (1 / 2) 255 (1 / 1000)
            (setupLavaSystem 1280 1024 (fun _ => 0)).lava
        }).realisticSim.heightData k
      = (clearLava 1280 { setupLavaSystem 1280 1024 (fun _ => 0) with
          lava := injectLavaUV 1280 (1 / 2) (1 / 2) 255 (1 / 1000)
            (setupLavaSystem 1280 1024 (fun _ => 0)).lava
        }).realisticSim.originalHeightData k) := by
  refine ⟨by decide, rfl, ?_, fun k => rfl⟩
  intro x y hx hy
  simp only [clearLava, RealisticLavaSimulator.clear, setupLavaSystem]
  rw [if_pos ⟨hx, hy⟩]

/-! ## Thermal-engine lemmas -/

section Thermal
open RealisticLavaSimulator

theorem fluxBump_refl (f : ℕ → ℕ → LavaCell) : FluxBump f f :=
  fun _ _ => ⟨rfl, rfl, le_refl _, le_refl _⟩

theorem fluxBump_trans {f g h : ℕ → ℕ → LavaCell} (h1 : FluxBump f g)
    (h2 : FluxBump g h) : FluxBump f h := fun a b =>
  ⟨(h2 a b).1.trans (h1 a b).1, (h2 a b).2.1.trans (h1 a b).2.1,
   le_trans (h1 a b).2.2.1 (h2 a b).2.2.1,
   le_trans (h1 a b).2.2.2 (h2 a b).2.2.2⟩

theorem fluxBump_bumpCell (f : ℕ → ℕ → LavaCell) (x y : ℕ) (δ t : ℚ)
    (hδ : 0 ≤ δ) : FluxBump f (fluxBumpCell f x y δ t) := by
  intro a b
  unfold fluxBumpCell upd2
  split_ifs with h
  · obtain ⟨rfl, rfl⟩ := h
    exact ⟨rfl, rfl, le_add_of_nonneg_right hδ, le_max_left _ _⟩
  · exact ⟨rfl, rfl, le_refl _, le_refl _⟩

theorem fluxBump_fluxX (field : ℕ → ℕ → LavaCell) (flowN x y : ℕ)
    (fluxX oldTemp : ℚ) :
    FluxBump field
      (if 0 < fluxX ∧ x < flowN - 1 then
        fluxBumpCell field (x + 1) y (fluxX * (1 / 2)) oldTemp
      else if fluxX < 0 ∧ 0 < x then
        fluxBumpCell field (x - 1) y (|fluxX| * (1 / 2)) oldTemp
      else field) := by
  split_ifs with hA hB
  · exact fluxBump_bumpCell field (x + 1) y _ oldTemp (by linarith [hA.1])
  · exact fluxBump_bumpCell field (x - 1) y _ oldTemp (by positivity)
  · exact fluxBump_refl field

theorem fluxBump_fluxY (field : ℕ → ℕ → LavaCell) (flowN x y : ℕ)
    (fluxY oldTemp : ℚ) :
    FluxBump field
      (if 0 < fluxY ∧ y < flowN - 1 then
        fluxBumpCell field x (y + 1) (fluxY * (1 / 2)) oldTemp
      else if fluxY < 0 ∧ 0 < y then
        fluxBumpCell field x (y - 1) (|fluxY| * (1 / 2)) oldTemp
      else field) := by
  split_ifs with hA hB
  · exact fluxBump_bumpCell field x (y + 1) _ oldTemp (by linarith [hA.1])
  · exact fluxBump_bumpCell field x (y - 1) _ oldTemp (by positivity)
  · exact fluxBump_refl field

theorem flowPhase_fluxBump (F : ThermalFns) (flowN : ℕ) (dt oldTemp : ℚ)
    (nc1 : LavaCell) (slope : ℚ × ℚ) (field : ℕ → ℕ → LavaCell) (x y : ℕ) :
    FluxBump field (flowPhase F flowN dt oldTemp nc1 slope field x y).1 := by
  simp only [flowPhase]
  split
  · exact fluxBump_trans (fluxBump_fluxX field flowN x y _ oldTemp)
      (fluxBump_fluxY _ flowN x y _ oldTemp)
  · exact fluxBump_refl field

theorem flowPhase_snd (F : ThermalFns) (flowN : ℕ) (dt oldTemp : ℚ)
    (nc1 : LavaCell) (slope : ℚ × ℚ) (field : ℕ → ℕ → LavaCell) (x y : ℕ) :
    ((flowPhase F flowN dt oldTemp nc1 slope field x y).2).solid = nc1.solid ∧
    ((flowPhase F flowN dt oldTemp nc1 slope field x y).2).temperature
      = nc1.temperature := by
  simp only [flowPhase]
  split <;> exact ⟨rfl, rfl⟩

theorem flowPhase_snd_cold (F : ThermalFns) (flowN : ℕ) (dt oldTemp : ℚ)
    (nc1 : LavaCell) (slope : ℚ × ℚ) (field : ℕ → ℕ → LavaCell) (x y : ℕ)
    (hnc : ColdImpliesSolid nc1) (hS : nc1.solid = false) :
    ColdImpliesSolid (flowPhase F flowN dt oldTemp nc1 slope field x y).2 := by
  intro hcold
  rw [(flowPhase_snd F flowN dt oldTemp nc1 slope field x y).2] at hcold
  exact absurd (hnc hcold).1 (by rw [hS]; exact Bool.false_ne_true)

theorem flowPhase_snd_still (F : ThermalFns) (flowN : ℕ) (dt oldTemp : ℚ)
    (nc1 : LavaCell) (slope : ℚ × ℚ) (field : ℕ → ℕ → LavaCell) (x y : ℕ)
    (hS : nc1.solid = false) :
    SolidImpliesStill (flowPhase F flowN dt oldTemp nc1 slope field x y).2 := by
  intro hsolid
  rw [(flowPhase_snd F flowN dt oldTemp nc1 slope field x y).1] at hsolid
  exact absurd hsolid (by rw [hS]; exact Bool.false_ne_true)

theorem updateThermal_cold (F : ThermalFns) (cell : LavaCell) (dt sa : ℚ)
    (hthick : ¬(cell.thickness < 1 / 1000)) :
    ColdImpliesSolid (updateThermalProperties F cell dt sa) := by
  intro hcold
  simp only [updateThermalProperties, if_neg hthick] at hcold ⊢
  exact ⟨if_pos hcold, if_pos hcold⟩

theorem updateThermal_cold_preserve (F : ThermalFns) (cell : LavaCell)
    (dt sa : ℚ) (h : ColdImpliesSolid cell) :
    ColdImpliesSolid (updateThermalProperties F cell dt sa) := by
  by_cases hthick : cell.thickness < 1 / 1000
  · intro hcold
    simp only [updateThermalProperties, if_pos hthick] at hcold ⊢
    exact h hcold
  · exact updateThermal_cold F cell dt sa hthick

theorem updateThermal_solidZero (F : ThermalFns) (cell : LavaCell)
    (dt sa : ℚ) (h : SolidZero cell) :
    SolidZero (updateThermalProperties F cell dt sa) := by
  unfold SolidZero at *
  simp only [updateThermalProperties]
  split_ifs <;> first | exact h | exact ⟨rfl, rfl⟩

theorem updateThermal_still (F : ThermalFns) (cell : LavaCell) (dt sa : ℚ)
    (h : SolidImpliesStill cell) :
    SolidImpliesStill (updateThermalProperties F cell dt sa) := by
  unfold SolidImpliesStill at *
  simp only [updateThermalProperties]
  split_ifs <;> first | exact h | exact fun _ => rfl

end Thermal
section Thermal2
open RealisticLavaSimulator

theorem upd2_self (f : ℕ → ℕ → LavaCell) (x y : ℕ) (c : LavaCell) :
    upd2 f x y c x y = c := if_pos ⟨rfl, rfl⟩

theorem stepCell_other (F : ThermalFns) (flowN res : ℕ)
    (oldF : ℕ → ℕ → LavaCell) (dt : ℚ)
    (acc : (ℕ → ℕ → LavaCell) × (ℕ → ℕ → TerrainMod) × (ℕ → ℚ))
    (p c : ℕ × ℕ) (hne : ¬(c.1 = p.1 ∧ c.2 = p.2)) :
    ((stepCell F flowN res oldF dt acc p).1 c.1 c.2).solid
        = (acc.1 c.1 c.2).solid ∧
    ((stepCell F flowN res oldF dt acc p).1 c.1 c.2).velocity
        = (acc.1 c.1 c.2).velocity ∧
    (acc.1 c.1 c.2).thickness
        ≤ ((stepCell F flowN res oldF dt acc p).1 c.1 c.2).thickness ∧
    (acc.1 c.1 c.2).temperature
        ≤ ((stepCell F flowN res oldF dt acc p).1 c.1 c.2).temperature := by
  simp only [stepCell]
  split
  · exact ⟨rfl, rfl, le_refl _, le_refl _⟩
  · simp only [upd2, if_neg hne]
    split
    · exact flowPhase_fluxBump F flowN dt _ _ _ acc.1 p.1 p.2 c.1 c.2
    · exact ⟨rfl, rfl, le_refl _, le_refl _⟩

theorem stepCell_own_cold (F : ThermalFns) (flowN res : ℕ)
    (oldF : ℕ → ℕ → LavaCell) (dt : ℚ)
    (acc : (ℕ → ℕ → LavaCell) × (ℕ → ℕ → TerrainMod) × (ℕ → ℚ))
    (c : ℕ × ℕ) (hold : ¬(oldF c.1 c.2).thickness < 1 / 1000)
    (hacc : ¬(acc.1 c.1 c.2).thickness < 1 / 1000) :
    ColdImpliesSolid ((stepCell F flowN res oldF dt acc c).1 c.1 c.2) := by
  simp only [stepCell, if_neg hold]
  rw [upd2_self]
  split
  · exact flowPhase_snd_cold F flowN dt _ _ _ acc.1 c.1 c.2
      (updateThermal_cold F _ dt 1 hacc) (by assumption)
  · exact updateThermal_cold F _ dt 1 hacc

theorem stepCell_own_solidZero (F : ThermalFns) (flowN res : ℕ)
    (oldF : ℕ → ℕ → LavaCell) (dt : ℚ)
    (acc : (ℕ → ℕ → LavaCell) × (ℕ → ℕ → TerrainMod) × (ℕ → ℚ))
    (c : ℕ × ℕ) (h : SolidZero (acc.1 c.1 c.2)) :
    SolidZero ((stepCell F flowN res oldF dt acc c).1 c.1 c.2) := by
  simp only [stepCell]
  split
  · exact h
  · dsimp only
    rw [upd2_self]
    split
    · exact absurd (updateThermal_solidZero F _ dt 1 h).1
        (by rw [(by assumption : (updateThermalProperties F (acc.1 c.1 c.2) dt 1).solid = false)]; exact Bool.false_ne_true)
    · exact updateThermal_solidZero F _ dt 1 h

theorem stepCell_own_still (F : ThermalFns) (flowN res : ℕ)
    (oldF : ℕ → ℕ → LavaCell) (dt : ℚ)
    (acc : (ℕ → ℕ → LavaCell) × (ℕ → ℕ → TerrainMod) × (ℕ → ℚ))
    (c : ℕ × ℕ) (h : SolidImpliesStill (acc.1 c.1 c.2)) :
    SolidImpliesStill ((stepCell F flowN res oldF dt acc c).1 c.1 c.2) := by
  simp only [stepCell]
  split
  · exact h
  · dsimp only
    rw [upd2_self]
    split
    · exact flowPhase_snd_still F flowN dt _ _ _ acc.1 c.1 c.2 (by assumption)
    · exact updateThermal_still F _ dt 1 h

end Thermal2
section Thermal3
open RealisticLavaSimulator

theorem stepCell_cold_other (F : ThermalFns) (flowN res : ℕ)
    (oldF : ℕ → ℕ → LavaCell) (dt : ℚ)
    (acc : (ℕ → ℕ → LavaCell) × (ℕ → ℕ → TerrainMod) × (ℕ → ℚ))
    (p c : ℕ × ℕ) (hne : ¬(c.1 = p.1 ∧ c.2 = p.2))
    (h : ColdImpliesSolid (acc.1 c.1 c.2)) :
    ColdImpliesSolid ((stepCell F flowN res oldF dt acc p).1 c.1 c.2) := by
  intro hcold
  have ho := stepCell_other F flowN res oldF dt acc p c hne
  have hb := h (lt_of_le_of_lt ho.2.2.2 hcold)
  exact ⟨ho.1.trans hb.1, ho.2.1.trans hb.2⟩

theorem foldl_cold_pres (F : ThermalFns) (flowN res : ℕ)
    (oldF : ℕ → ℕ → LavaCell) (dt : ℚ) (c : ℕ × ℕ) :
    ∀ (l : List (ℕ × ℕ)), (∀ p ∈ l, ¬(c.1 = p.1 ∧ c.2 = p.2)) →
    ∀ acc, ColdImpliesSolid (acc.1 c.1 c.2) →
    ColdImpliesSolid
      ((l.foldl (stepCell F flowN res oldF dt) acc).1 c.1 c.2) := by
  intro l
  induction l with
  | nil => exact fun _ _ h => h
  | cons p l ih =>
    intro hnp acc h
    exact ih (fun q hq => hnp q (List.mem_cons_of_mem p hq)) _
      (stepCell_cold_other F flowN res oldF dt acc p c
        (hnp p (List.mem_cons_self p l)) h)

theorem foldl_cold_est (F : ThermalFns) (flowN res : ℕ)
    (oldF : ℕ → ℕ → LavaCell) (dt : ℚ) (c : ℕ × ℕ)
    (hold : ¬(oldF c.1 c.2).thickness < 1 / 1000) :
    ∀ (l : List (ℕ × ℕ)), l.Nodup → c ∈ l →
    ∀ acc, (oldF c.1 c.2).thickness ≤ (acc.1 c.1 c.2).thickness →
    ColdImpliesSolid
      ((l.foldl (stepCell F flowN res oldF dt) acc).1 c.1 c.2) := by
  intro l
  induction l with
  | nil => intro _ hc; cases hc
  | cons p l ih =>
    intro hnd hc acc hle
    rcases List.mem_cons.mp hc with heq | hmem
    · subst heq
      have hacc : ¬(acc.1 c.1 c.2).thickness < 1 / 1000 :=
        fun hlt => hold (lt_of_le_of_lt hle hlt)
      have hnotin : ∀ q ∈ l, ¬(c.1 = q.1 ∧ c.2 = q.2) := by
        intro q hq hqe
        exact (List.nodup_cons.mp hnd).1
          ((Prod.ext_iff.mpr hqe : c = q) ▸ hq)
      exact foldl_cold_pres F flowN res oldF dt c l hnotin _
        (stepCell_own_cold F flowN res oldF dt acc c hold hacc)
    · have hne : ¬(c.1 = p.1 ∧ c.2 = p.2) := fun hh =>
        (List.nodup_cons.mp hnd).1 ((Prod.ext_iff.mpr hh : c = p) ▸ hmem)
      exact ih (List.nodup_cons.mp hnd).2 hmem _
        (hle.trans (stepCell_other F flowN res oldF dt acc p c hne).2.2.1)

theorem stepCell_solidZero_pt (F : ThermalFns) (flowN res : ℕ)
    (oldF : ℕ → ℕ → LavaCell) (dt : ℚ)
    (acc : (ℕ → ℕ → LavaCell) × (ℕ → ℕ → TerrainMod) × (ℕ → ℚ))
    (p : ℕ × ℕ) (a b : ℕ) (h : SolidZero (acc.1 a b)) :
    SolidZero ((stepCell F flowN res oldF dt acc p).1 a b) := by
  by_cases hc : a = p.1 ∧ b = p.2
  · obtain ⟨h1, h2⟩ := hc
    subst h1; subst h2
    exact stepCell_own_solidZero F flowN res oldF dt acc p h
  · have ho := stepCell_other F flowN res oldF dt acc p (a, b) hc
    exact ⟨ho.1.trans h.1, ho.2.1.trans h.2⟩

theorem foldl_solidZero (F : ThermalFns) (flowN res : ℕ)
    (oldF : ℕ → ℕ → LavaCell) (dt : ℚ) (a b : ℕ) :
    ∀ (l : List (ℕ × ℕ)) acc, SolidZero (acc.1 a b) →
    SolidZero ((l.foldl (stepCell F flowN res oldF dt) acc).1 a b) := by
  intro l
  induction l with
  | nil => exact fun _ h => h
  | cons p l ih =>
    intro acc h
    exact ih _ (stepCell_solidZero_pt F flowN res oldF dt acc p a b h)

theorem stepCell_still_pt (F : ThermalFns) (flowN res : ℕ)
    (oldF : ℕ → ℕ → LavaCell) (dt : ℚ)
    (acc : (ℕ → ℕ → LavaCell) × (ℕ → ℕ → TerrainMod) × (ℕ → ℚ))
    (p : ℕ × ℕ) (a b : ℕ) (h : SolidImpliesStill (acc.1 a b)) :
    SolidImpliesStill ((stepCell F flowN res oldF dt acc p).1 a b) := by
  by_cases hc : a = p.1 ∧ b = p.2
  · obtain ⟨h1, h2⟩ := hc
    subst h1; subst h2
    exact stepCell_own_still F flowN res oldF dt acc p h
  · have ho := stepCell_other F flowN res oldF dt acc p (a, b) hc
    intro hs
    rw [ho.2.1]
    exact h (ho.1.symm.trans hs)

theorem foldl_still (F : ThermalFns) (flowN res : ℕ)
    (oldF : ℕ → ℕ → LavaCell) (dt : ℚ) (a b : ℕ) :
    ∀ (l : List (ℕ × ℕ)) acc, SolidImpliesStill (acc.1 a b) →
    SolidImpliesStill ((l.foldl (stepCell F flowN res oldF dt) acc).1 a b) := by
  intro l
  induction l with
  | nil => exact fun _ h => h
  | cons p l ih =>
    intro acc h
    exact ih _ (stepCell_still_pt F flowN res oldF dt acc p a b h)

theorem interiorCells_nodup (flowN : ℕ) : (interiorCells flowN).Nodup := by
  unfold interiorCells
  refine List.Nodup.map ?_ ((List.nodup_range _).product (List.nodup_range _))
  intro q r h
  have h1 : q.2 + 1 = r.2 + 1 := congrArg Prod.fst h
  have h2 : q.1 + 1 = r.1 + 1 := congrArg Prod.snd h
  exact Prod.ext_iff.mpr ⟨Nat.succ_injective h2, Nat.succ_injective h1⟩

end Thermal3
section Thermal4
open RealisticLavaSimulator

/-- **C8.** In the thermal engine, solidification is one-way over a
`simulate()` tick: (a) every interior cell that the tick processes (its
pre-tick thickness is at least the 0.001 threshold) ends the tick
satisfying "temperature below 700 °C implies `solid = true` and
`velocity = (0, 0)`" — in particular a cell whose temperature drops below
700 °C during the tick reports solid and still at the end of it, and flux
arriving from neighbours (which can only raise the stored temperature and
never touches `solid` or `velocity`) cannot undo this; and (b) a cell that
is solid with zero velocity stays solid with zero velocity through every
subsequent tick — no tick-driven transition re-liquefies a solid cell. -/
theorem C8_solidification_one_way (F : ThermalFns) (flowN res : ℕ)
    (dt : ℚ) (s : RealState) :
    (∀ c ∈ interiorCells flowN,
      ¬(s.lavaField c.1 c.2).thickness < 1 / 1000 →
      ColdImpliesSolid ((simulate F flowN res dt s).lavaField c.1 c.2)) ∧
    (∀ a b : ℕ, SolidZero (s.lavaField a b) →
      SolidZero ((simulate F flowN res dt s).lavaField a b)) := by
  constructor
  · intro c hc hold
    exact foldl_cold_est F flowN res s.lavaField dt c hold
      (interiorCells flowN) (interiorCells_nodup flowN) hc _ (le_refl _)
  · intro a b h
    exact foldl_solidZero F flowN res s.lavaField dt a b
      (interiorCells flowN) _ h

unseal Rat.add Rat.mul Rat.inv Rat.sub in
theorem C8_solidification_one_way_witness :
    SolidZero ((simulate zeroFns 3 3 (1 / 10) coolingCellState).lavaField 1 1) ∧
    SolidZero ((simulate zeroFns 3 3 (1 / 10)
      (initState 3 3 (fun _ => 0))).lavaField 1 1) :=
  ⟨(C8_solidification_one_way zeroFns 3 3 (1 / 10) coolingCellState).1
      (1, 1) (by decide) (by decide) (by decide),
   (C8_solidification_one_way zeroFns 3 3 (1 / 10)
      (initState 3 3 (fun _ => 0))).2 1 1 ⟨rfl, rfl⟩⟩

/-- **C9 (amended).** Every reachable simulator state satisfies the second
half of the claimed data-model invariant: a solid cell always has zero
velocity (`solid = true → velocity = (0, 0)`, at every cell, after
construction and any sequence of `simulate`, `injectLava` and `clear`
calls). -/
theorem C9_solid_velocity_invariant (F : ThermalFns) (flowN res : ℕ)
    (hd0 : ℕ → ℚ) (s : RealState) (hs : Reached F flowN res hd0 s) :
    ∀ a b : ℕ, SolidImpliesStill (s.lavaField a b) := by
  induction hs with
  | init => intro a b _; rfl
  | sim s dt hr ih =>
    intro a b
    exact foldl_still F flowN res s.lavaField dt a b (interiorCells flowN)
      _ (ih a b)
  | inject s u v amount temperature hr ih =>
    intro a b
    simp only [injectLavaState, injectLava]
    split_ifs with h1 h2 h3
    · exact fun hsolid => (Bool.false_ne_true hsolid).elim
    · exact ih a b
    · exact ih a b
    · exact ih a b
  | wipe s hr ih =>
    intro a b
    simp only [clear]
    split_ifs with h1
    · exact fun _ => rfl
    · exact ih a b

theorem C9_solid_velocity_invariant_witness :
    SolidImpliesStill
      ((RealisticLavaSimulator.initState 3 3 (fun _ => 0)).lavaField 0 0) :=
  C9_solid_velocity_invariant zeroFns 3 3 (fun _ => 0) _ Reached.init 0 0

unseal Rat.add Rat.mul Rat.inv Rat.sub in
theorem cexSolidFalse :
    ((injectLavaState zeroFns 10 (1 / 2) (1 / 2) 100 500
      (initState 10 4 (fun _ => 0))).lavaField 4 4).solid = false := by decide

unseal Rat.add Rat.mul Rat.inv Rat.sub in
theorem cexTempCold :
    ((injectLavaState zeroFns 10 (1 / 2) (1 / 2) 100 500
      (initState 10 4 (fun _ => 0))).lavaField 4 4).temperature
      < RealisticLavaSimulator.SOLIDIFICATION_TEMP := by decide

/-- **C9, counterexample to the claim as stated.**  The claimed iff
`solid = true ↔ temperature < 700` fails on a reachable state:
`injectLava` always sets `solid := false` on the cells it covers, even
when the mixed temperature is below the solidification threshold, so the
freshly injected centre cell has temperature 500 °C yet `solid = false`. -/
theorem C9_counterexample :
    ¬(∀ (F : ThermalFns) (flowN res : ℕ) (hd0 : ℕ → ℚ) (s : RealState),
        Reached F flowN res hd0 s → ∀ a b : ℕ, a < flowN → b < flowN →
        (((s.lavaField a b).solid = true ↔
            (s.lavaField a b).temperature < SOLIDIFICATION_TEMP) ∧
         ((s.lavaField a b).solid = true ∨
            (s.lavaField a b).thickness < 1 / 100 →
          (s.lavaField a b).velocity = (0, 0)))) := by
  intro h
  have hc := (h zeroFns 10 4 (fun _ => 0) _
    (Reached.inject _ (1 / 2) (1 / 2) 100 500 Reached.init) 4 4
    (by decide) (by decide)).1
  have h1 : ((injectLavaState zeroFns 10 (1 / 2) (1 / 2) 100 500
      (initState 10 4 (fun _ => 0))).lavaField 4 4).solid = false :=
    cexSolidFalse
  have h2 : ((injectLavaState zeroFns 10 (1 / 2) (1 / 2) 100 500
      (initState 10 4 (fun _ => 0))).lavaField 4 4).temperature
      < SOLIDIFICATION_TEMP := cexTempCold
  exact Bool.false_ne_true (h1.symm.trans (hc.mpr h2))

end Thermal4

end Eruptor
